import Mathlib

/-!
Verification development for the RPA input-validation / document-processing
system (`new_rpa_system.py`).  The Python code is shallowly embedded: strings
are Lean `String`/`List Char`, the regex format checks are transliterated into
decidable matchers with CPython `re` semantics — `\d` matches any Unicode
decimal digit (general category `Nd`, whose code-point ranges are baked in
from the Unicode 14.0.0 database shipped with the interpreter), and the `$`
anchor matches at the end of the string or just before a single trailing
newline, while literal characters and explicit classes such as `[1-9]` and
`[ONT]` match exactly — dictionaries `{"valid": ..., "message": ...}` become
the structure `VOutcome`, and the spreadsheet / word-processing documents
become explicit data that the embedded operations transform, with the
`datetime.now()` timestamp passed in as an explicit argument.
-/

/-- Embedding of the validation-result dictionaries
`{"valid": bool, "message": str}` returned by every validator. -/
structure VOutcome where
  valid : Bool
  message : String
deriving DecidableEq

/-- Characters stripped by Python `str.strip()` (ASCII whitespace plus the
ideographic space; the embedding restricts to these). -/
def isPySpace (c : Char) : Bool :=
  c == ' ' || c == '\t' || c == '\n' || c == '\r' || c == '\x0b' || c == '\x0c' || c == '　'

/-- The character class `[぀-ゟ゠-ヿ一-龯＀-￯]`
searched for by `validate_username` (hiragana, katakana, kanji, full-width
forms). -/
def isJapaneseChar (c : Char) : Bool :=
  decide ((0x3040 ≤ c.toNat ∧ c.toNat ≤ 0x309F) ∨ (0x30A0 ≤ c.toNat ∧ c.toNat ≤ 0x30FF) ∨
    (0x4E00 ≤ c.toNat ∧ c.toNat ≤ 0x9FAF) ∨ (0xFF00 ≤ c.toNat ∧ c.toNat ≤ 0xFFEF))

/-- The regex class `[1-9]` (an explicit character range, so exactly the
ASCII digits `1`–`9`). -/
def isNonzeroDigit (c : Char) : Bool :=
  decide ('1' ≤ c ∧ c ≤ '9')

/-- The code-point ranges of Unicode general category `Nd` (decimal digits),
from the Unicode 14.0.0 database shipped with the CPython interpreter that
runs the program. -/
def ndRanges : List (Nat × Nat) :=
  [(48, 57), (1632, 1641), (1776, 1785), (1984, 1993), (2406, 2415), (2534, 2543),
   (2662, 2671), (2790, 2799), (2918, 2927), (3046, 3055), (3174, 3183), (3302, 3311),
   (3430, 3439), (3558, 3567), (3664, 3673), (3792, 3801), (3872, 3881), (4160, 4169),
   (4240, 4249), (6112, 6121), (6160, 6169), (6470, 6479), (6608, 6617), (6784, 6793),
   (6800, 6809), (6992, 7001), (7088, 7097), (7232, 7241), (7248, 7257), (42528, 42537),
   (43216, 43225), (43264, 43273), (43472, 43481), (43504, 43513), (43600, 43609),
   (44016, 44025), (65296, 65305), (66720, 66729), (68912, 68921), (69734, 69743),
   (69872, 69881), (69942, 69951), (70096, 70105), (70384, 70393), (70736, 70745),
   (70864, 70873), (71248, 71257), (71360, 71369), (71472, 71481), (71904, 71913),
   (72016, 72025), (72784, 72793), (73040, 73049), (73120, 73129), (92768, 92777),
   (92864, 92873), (93008, 93017), (120782, 120831), (123200, 123209), (123632, 123641),
   (125264, 125273), (130032, 130041)]

/-- The regex class `\d` in a CPython `str` pattern: any Unicode decimal
digit (category `Nd`), not only ASCII `0`–`9`. -/
def pyIsDigit (c : Char) : Bool :=
  ndRanges.any (fun p => decide (p.1 ≤ c.toNat ∧ c.toNat ≤ p.2))

/-- `re.match` of a `^...$` pattern whose body is matched by `core`: in
CPython, `$` matches at the end of the string *or just before a newline at
the end of the string*, so the whole input matches, or the input ends in a
single `\n` and everything before it matches. -/
def matchAnchored (core : List Char → Bool) (l : List Char) : Bool :=
  core l || (l.getLast? == some '\n' && core l.dropLast)

/-- Body of `MODEL_PATTERN = ^(100|200|201|350|351)-\d{4}\.\d{6}$`:
exactly 15 characters, a three-character prefix from the five supported model
families, `-`, four digits, `.`, six digits. -/
def matchModelCore : List Char → Bool
  | [a, b, c, dash, d1, d2, d3, d4, dot, e1, e2, e3, e4, e5, e6] =>
    ((a == '1' && b == '0' && c == '0') || (a == '2' && b == '0' && c == '0') ||
     (a == '2' && b == '0' && c == '1') || (a == '3' && b == '5' && c == '0') ||
     (a == '3' && b == '5' && c == '1')) &&
    dash == '-' && pyIsDigit d1 && pyIsDigit d2 && pyIsDigit d3 && pyIsDigit d4 &&
    dot == '.' && pyIsDigit e1 && pyIsDigit e2 && pyIsDigit e3 && pyIsDigit e4 &&
    pyIsDigit e5 && pyIsDigit e6
  | _ => false

/-- Matcher for `re.match(MODEL_PATTERN, s)` as a full-match test (the
pattern is `^...$`-anchored, with `$` also matching before one trailing
newline). -/
def matchModel (l : List Char) : Bool := matchAnchored matchModelCore l

/-- Body of `MANUFACTURING_PATTERN = ^J000\d{4}0[1-9]00$`:
exactly 12 characters, literal `J000`, four digits, literal `0`, one digit in
`1`–`9`, literal `00`. -/
def matchManufacturingCore : List Char → Bool
  | [c0, c1, c2, c3, d1, d2, d3, d4, c8, n, c10, c11] =>
    c0 == 'J' && c1 == '0' && c2 == '0' && c3 == '0' &&
    pyIsDigit d1 && pyIsDigit d2 && pyIsDigit d3 && pyIsDigit d4 &&
    c8 == '0' && isNonzeroDigit n && c10 == '0' && c11 == '0'
  | _ => false

/-- Matcher for `re.match(MANUFACTURING_PATTERN, s)` as a full-match test
(`$` also matching before one trailing newline). -/
def matchManufacturing (l : List Char) : Bool := matchAnchored matchManufacturingCore l

/-- Body of `ORDER_PATTERN = ^[ONT]\d{4}$`: exactly 5 characters, one of
`O`/`N`/`T` followed by four digits. -/
def matchOrderCore : List Char → Bool
  | [c0, d1, d2, d3, d4] =>
    (c0 == 'O' || c0 == 'N' || c0 == 'T') &&
    pyIsDigit d1 && pyIsDigit d2 && pyIsDigit d3 && pyIsDigit d4
  | _ => false

/-- Matcher for `re.match(ORDER_PATTERN, s)` as a full-match test (`$` also
matching before one trailing newline). -/
def matchOrder (l : List Char) : Bool := matchAnchored matchOrderCore l

def usernameEmptyMsg : String := "ユーザ名を入力してください。"
def usernameBlankMsg : String := "ユーザ名は空白のみでは入力できません。"
def usernameScriptMsg : String := "ユーザ名には日本語文字を含む必要があります。"
def modelEmptyMsg : String := "型番を入力してください。"
def modelFormatMsg : String :=
  "型番の形式が正しくありません。\n形式: 100,200,201,350,351のいずれか-4桁数字.6桁数字\n例: 100-2312.003000"
def manufacturingEmptyMsg : String := "製造番号を入力してください。"
def manufacturingFormatMsg : String :=
  "製造番号の形式が正しくありません。\n形式: J000+4桁数字+0+1-9+00\n例: J00023150100"
def orderEmptyMsg : String := "受注番号を入力してください。"
def orderFormatMsg : String := "受注番号の形式が正しくありません。\n形式: O/N/T+4桁数字\n例: O2315"

/-- `NewRPASystem.validate_username`. -/
def validate_username (username : String) : VOutcome :=
  if username = "" then ⟨false, usernameEmptyMsg⟩
  else if username.data.all isPySpace then ⟨false, usernameBlankMsg⟩
  else if ! username.data.any isJapaneseChar then ⟨false, usernameScriptMsg⟩
  else ⟨true, ""⟩

/-- `NewRPASystem.validate_model`. -/
def validate_model (model : String) : VOutcome :=
  if model = "" then ⟨false, modelEmptyMsg⟩
  else if ! matchModel model.data then ⟨false, modelFormatMsg⟩
  else ⟨true, ""⟩

/-- `NewRPASystem.validate_manufacturing_number`. -/
def validate_manufacturing_number (manufacturing : String) : VOutcome :=
  if manufacturing = "" then ⟨false, manufacturingEmptyMsg⟩
  else if ! matchManufacturing manufacturing.data then ⟨false, manufacturingFormatMsg⟩
  else ⟨true, ""⟩

/-- `NewRPASystem.validate_order_number`. -/
def validate_order_number (order : String) : VOutcome :=
  if order = "" then ⟨false, orderEmptyMsg⟩
  else if ! matchOrder order.data then ⟨false, orderFormatMsg⟩
  else ⟨true, ""⟩

/-- Python slice `s[a:b]` for `0 ≤ a ≤ b` (clamping at the end of the
string). -/
def pySlice (s : String) (a b : Nat) : String :=
  ⟨(s.data.drop a).take (b - a)⟩

/-- `NewRPASystem.validate_manufacturing_order_consistency`: compares
`manufacturing[4:8]` with `order[1:5]` and reports both slices in the error
message. -/
def validate_manufacturing_order_consistency (manufacturing order : String) : VOutcome :=
  let manufacturing_middle := pySlice manufacturing 4 8
  let order_prefix := pySlice order 1 5
  if manufacturing_middle ≠ order_prefix then
    ⟨false,
      "製造番号と受注番号が一致しません。\n製造番号の5-8文字目: " ++ manufacturing_middle ++
      "\n受注番号の1-4文字目: " ++ order_prefix ++ "\nこれらは同じである必要があります。"⟩
  else ⟨true, ""⟩

/-- The `validations` list built by `validate_inputs`. -/
def fieldValidations (username model manufacturing order : String) : List (String × VOutcome) :=
  [("ユーザ名", validate_username username),
   ("型番", validate_model model),
   ("製造番号", validate_manufacturing_number manufacturing),
   ("受注番号", validate_order_number order)]

/-- The loop in `validate_inputs` that returns the first failing field's
outcome, with the field name prefixed onto the message. -/
def firstFieldError : List (String × VOutcome) → Option VOutcome
  | [] => none
  | (name, r) :: rest =>
    if r.valid then firstFieldError rest else some ⟨false, name ++ ": " ++ r.message⟩

/-- `NewRPASystem.validate_inputs`: individual checks in fixed order with
short-circuit on the first failure, then the consistency check. -/
def validate_inputs (username model manufacturing order : String) : VOutcome :=
  match firstFieldError (fieldValidations username model manufacturing order) with
  | some r => r
  | none =>
    let c := validate_manufacturing_order_consistency manufacturing order
    if c.valid then ⟨true, ""⟩ else c

/-- The manufacturing-number grammar as worded by the specification — literal
prefix `J000`, a 4-digit segment, a literal zero, a single digit `1`-`9`, and
a literal `00` suffix (a fixed 12-character code) — with `digit` the Unicode
decimal digits that the pattern's `\d` actually matches. -/
def manufacturingGrammarCore (l : List Char) : Prop :=
  ∃ d1 d2 d3 d4 n : Char,
    l = ['J', '0', '0', '0', d1, d2, d3, d4, '0', n, '0', '0'] ∧
    pyIsDigit d1 = true ∧ pyIsDigit d2 = true ∧ pyIsDigit d3 = true ∧ pyIsDigit d4 = true ∧
    '1' ≤ n ∧ n ≤ '9'

/-- Acceptance condition of the manufacturing-number check: the whole string,
or everything before a single trailing newline (which the `$` anchor
tolerates), fits the 12-character grammar. -/
def manufacturingGrammar (s : String) : Prop :=
  manufacturingGrammarCore s.data ∨ ∃ t, s.data = t ++ ['\n'] ∧ manufacturingGrammarCore t

/-- The model-code grammar as worded by the specification —
`(100|200|201|350|351) "-" digit{4} "." digit{6}` — with `digit` the Unicode
decimal digits that the pattern's `\d` actually matches. -/
def modelGrammarCore (l : List Char) : Prop :=
  ∃ (p ds es : List Char),
    (p = "100".data ∨ p = "200".data ∨ p = "201".data ∨ p = "350".data ∨ p = "351".data) ∧
    l = p ++ '-' :: (ds ++ '.' :: es) ∧
    ds.length = 4 ∧ (∀ c ∈ ds, pyIsDigit c = true) ∧
    es.length = 6 ∧ (∀ c ∈ es, pyIsDigit c = true)

/-- Acceptance condition of the model-code check: the whole string, or
everything before a single trailing newline (which the `$` anchor tolerates),
fits the model grammar. -/
def modelGrammar (s : String) : Prop :=
  modelGrammarCore s.data ∨ ∃ t, s.data = t ++ ['\n'] ∧ modelGrammarCore t

/-- `splitext`/`strftime` digit rendering: the decimal digit character of
`d % 10`. -/
def digitChar (d : Nat) : Char :=
  match d % 10 with
  | 0 => '0' | 1 => '1' | 2 => '2' | 3 => '3' | 4 => '4'
  | 5 => '5' | 6 => '6' | 7 => '7' | 8 => '8' | _ => '9'

/-- Two-digit zero-padded rendering used by `strftime` for `%m %d %H %M %S`
(field values are below 100). -/
def pad2 (n : Nat) : List Char := [digitChar (n / 10), digitChar n]

/-- Four-digit zero-padded rendering used by `strftime` for `%Y` (years are
below 10000). -/
def pad4 (n : Nat) : List Char :=
  [digitChar (n / 1000), digitChar (n / 100), digitChar (n / 10), digitChar n]

/-- The `datetime.now()` value, passed to the embedded operations as an
explicit argument. -/
structure PyDateTime where
  year : Nat
  month : Nat
  day : Nat
  hour : Nat
  minute : Nat
  second : Nat
deriving DecidableEq

/-- `datetime.now().strftime("%Y%m%d_%H%M%S")`. -/
def formatTimestamp (t : PyDateTime) : List Char :=
  pad4 t.year ++ pad2 t.month ++ pad2 t.day ++ '_' ::
    (pad2 t.hour ++ pad2 t.minute ++ pad2 t.second)

/-- Python `str.rfind(c)`: index of the last occurrence of `c`, `-1` when
absent. -/
def pyRfind (c : Char) (l : List Char) : Int :=
  match l.reverse.findIdx? (fun x => x == c) with
  | some i => (l.length : Int) - 1 - i
  | none => -1

/-- `os.path.splitext` (posix): split at the final dot when it lies after the
final path separator and at least one non-dot character stands between them;
otherwise the extension is empty. -/
def pySplitext (p : List Char) : List Char × List Char :=
  let sepIndex := pyRfind '/' p
  let dotIndex := pyRfind '.' p
  if sepIndex < dotIndex then
    let fi := (sepIndex + 1).toNat
    if ((p.drop fi).take (dotIndex.toNat - fi)).any (fun x => !(x == '.')) then
      (p.take dotIndex.toNat, p.drop dotIndex.toNat)
    else (p, [])
  else (p, [])

/-- The output-file naming block shared verbatim by `write_to_excel` and
`replace_text_in_word`:
`f"{base_name}_processed_{timestamp}{extension}"` over `os.path.splitext` of
the source path and `strftime("%Y%m%d_%H%M%S")` of the current time. -/
def processedPath (file_path : List Char) (now : PyDateTime) : List Char :=
  let base_name := (pySplitext file_path).1
  let extension := (pySplitext file_path).2
  base_name ++ ("_processed_").data ++ formatTimestamp now ++ extension

def DEFAULT_EXCEL_FILE : List Char := ("check1.xlsx").data
def DEFAULT_WORD_FILE : List Char := ("check2.docx").data

/-- `REPLACEMENT_KEY = "検査対象情報"`, as a character list. -/
def REPLACEMENT_KEY : List Char := ("検査対象情報").data

/-- A worksheet: cell address (e.g. `"B4"`) to stored text. -/
abbrev Sheet := List (String × String)

/-- A workbook: sheet name to worksheet, in workbook order. -/
abbrev Workbook := List (String × Sheet)

def lookupCell : Sheet → String → Option String
  | [], _ => none
  | (k, v) :: rest, a => if k = a then some v else lookupCell rest a

/-- `ws[addr] = v`: overwrite the cell if present, append it otherwise. -/
def setCell : Sheet → String → String → Sheet
  | [], a, v => [(a, v)]
  | (k, w) :: rest, a, v =>
    if k = a then (k, v) :: rest else (k, w) :: setCell rest a v

def lookupSheet : Workbook → String → Option Sheet
  | [], _ => none
  | (n, sh) :: rest, a => if n = a then some sh else lookupSheet rest a

/-- `name in wb.sheetnames`. -/
def hasSheet (wb : Workbook) (name : String) : Bool := (lookupSheet wb name).isSome

/-- In-place mutation of the (first) sheet named `name`, as performed through
the object returned by `wb[name]`. -/
def updateSheet (name : String) (f : Sheet → Sheet) : Workbook → Workbook
  | [] => []
  | (n, sh) :: rest =>
    if n = name then (n, f sh) :: rest else (n, sh) :: updateSheet name f rest

def assemblySheetName : String := "組立チェック表"
def frameTestSheetName : String := "フレームテスト検査表"
def frameAssemblySheetName : String := "フレーム組立検査表"

/-- The four cell writes performed on `組立チェック表` (B4, B5, F4, F5). -/
def writeChecklistCells (username model manufacturing order : String) (sh : Sheet) : Sheet :=
  setCell (setCell (setCell (setCell sh
    "B4" ("ユーザー名：" ++ username))
    "B5" ("機種-型番：" ++ model))
    "F4" ("受注番号：" ++ order))
    "F5" ("製造番号：" ++ manufacturing)

/-- The four cell writes performed on `フレームテスト検査表` and on
`フレーム組立検査表` (B3, B4, F2, F3). -/
def writeInspectionCells (username model manufacturing order : String) (sh : Sheet) : Sheet :=
  setCell (setCell (setCell (setCell sh
    "B3" ("ユーザー名：" ++ username))
    "B4" ("機種-型番：" ++ model))
    "F2" ("受注番号：" ++ order))
    "F3" ("製造番号：" ++ manufacturing)

/-- Result of `write_to_excel`: the returned pair (plus the workbook content
saved at the new path; `saved = none` when nothing was written).  The
missing-default-file branch returns a bare `False` in the source; it is
rendered here as an all-`none` failure. -/
structure ExcelResult where
  success : Bool
  newPath : Option (List Char)
  saved : Option Workbook
deriving DecidableEq

/-- The body of `write_to_excel` once the workbook is open: write the four
labelled values into each of the three named sheets that is present, skip
absent sheets, then save under the `processedPath` name. -/
def writeExcelSheets (wb : Workbook) (username model manufacturing order : String) : Workbook :=
  let wb1 :=
    if hasSheet wb assemblySheetName then
      updateSheet assemblySheetName (writeChecklistCells username model manufacturing order) wb
    else wb
  let wb2 :=
    if hasSheet wb1 frameTestSheetName then
      updateSheet frameTestSheetName (writeInspectionCells username model manufacturing order) wb1
    else wb1
  if hasSheet wb2 frameAssemblySheetName then
    updateSheet frameAssemblySheetName (writeInspectionCells username model manufacturing order) wb2
  else wb2

/-- `NewRPASystem.write_to_excel`.  The workbook stored at the source path and
the current time are explicit arguments; `file_path = none` selects the
default file, whose existence flag is `defaultExcelExists`. -/
def write_to_excel (username model manufacturing order : String)
    (file_path : Option (List Char)) (defaultExcelExists : Bool)
    (wb : Workbook) (now : PyDateTime) : ExcelResult :=
  match file_path with
  | none =>
    if defaultExcelExists then
      ⟨true, some (processedPath DEFAULT_EXCEL_FILE now),
        some (writeExcelSheets wb username model manufacturing order)⟩
    else ⟨false, none, none⟩
  | some p =>
    ⟨true, some (processedPath p now),
      some (writeExcelSheets wb username model manufacturing order)⟩

/-- Python substring membership `needle in haystack`. -/
def containsSub (needle : List Char) : List Char → Bool
  | [] => needle.isEmpty
  | c :: rest => needle.isPrefixOf (c :: rest) || containsSub needle rest

/-- Python `str.replace` for a non-empty search string (fuelled so that the
recursion is structural; `pyReplace` supplies enough fuel): scan left to
right, replace each leftmost non-overlapping occurrence, continue after the
replaced segment. -/
def pyReplaceFuel (needle repl : List Char) : Nat → List Char → List Char
  | _, [] => []
  | 0, l => l
  | fuel + 1, c :: rest =>
    if needle ≠ [] ∧ needle.isPrefixOf (c :: rest) then
      repl ++ pyReplaceFuel needle repl fuel ((c :: rest).drop needle.length)
    else
      c :: pyReplaceFuel needle repl fuel rest

/-- Python `str.replace` (non-empty search string). -/
def pyReplace (needle repl t : List Char) : List Char := pyReplaceFuel needle repl t.length t

/-- Python `str.split` on a non-empty separator (fuelled): the segments
between leftmost non-overlapping occurrences of the separator. -/
def pySplitFuel (needle : List Char) : Nat → List Char → List (List Char)
  | _, [] => [[]]
  | 0, l => [l]
  | fuel + 1, c :: rest =>
    if needle ≠ [] ∧ needle.isPrefixOf (c :: rest) then
      [] :: pySplitFuel needle fuel ((c :: rest).drop needle.length)
    else
      match pySplitFuel needle fuel rest with
      | [] => [[c]]
      | q :: qs => (c :: q) :: qs

/-- Python `str.split` on a non-empty separator. -/
def pySplitOn (needle t : List Char) : List (List Char) := pySplitFuel needle t.length t

/-- One formatting run of a body paragraph: its own text node, whether its
element tag ends in `drawing`, and the leaf text nodes of its descendant
drawing elements. -/
structure BodyRun where
  text : List Char
  isDrawingTag : Bool
  leafTexts : List (List Char)
deriving DecidableEq

/-- A paragraph outside the body part (table cell, shape text frame, header,
footer): the list of its runs' texts. -/
abbrev PlainPara := List (List Char)

abbrev BodyPara := List BodyRun

/-- The word-processing document: body paragraphs, tables (rows / cells /
paragraphs / runs), inline shapes with an optional text frame, leaf text
nodes reachable only through the whole-document element walk, and per-section
optional headers and footers (header/footer parts are separate from the body
element tree). -/
structure WordDoc where
  body : List BodyPara
  tables : List (List (List (List PlainPara)))
  shapes : List (Option (List PlainPara))
  extraTexts : List (List Char)
  headers : List (Option (List PlainPara))
  footers : List (Option (List PlainPara))
deriving DecidableEq

/-- The per-text-node step of every pass:
`if search_text in t: t = t.replace(search_text, replace_text); count += 1`. -/
def repRun (needle repl t : List Char) : List Char × Nat :=
  if containsSub needle t then (pyReplace needle repl t, 1) else (t, 0)

/-- Apply an (element, count) transformation to every element of a list and
accumulate the counts, as the source's loops do with their shared counter. -/
def mapCount {α : Type} (f : α → α × Nat) (l : List α) : List α × Nat :=
  (l.map fun a => (f a).1, (l.map fun a => (f a).2).sum)

/-- `paragraph.text`: concatenation of the paragraph's run texts. -/
def bodyParaText (p : BodyPara) : List Char := (p.map BodyRun.text).flatten

/-- Pass 1 on one body paragraph: guarded by
`if search_text in paragraph.text`, then per-run replacement. -/
def replaceBodyPara (needle repl : List Char) (p : BodyPara) : BodyPara × Nat :=
  if containsSub needle (bodyParaText p) then
    mapCount (fun r =>
      ((⟨(repRun needle repl r.text).1, r.isDrawingTag, r.leafTexts⟩ : BodyRun),
        (repRun needle repl r.text).2)) p
  else (p, 0)

/-- Per-run replacement over one plain paragraph. -/
def replacePlainPara (needle repl : List Char) : PlainPara → PlainPara × Nat :=
  mapCount (repRun needle repl)

/-- Per-run replacement over a list of plain paragraphs. -/
def replaceParaList (needle repl : List Char) : List PlainPara → List PlainPara × Nat :=
  mapCount (replacePlainPara needle repl)

/-- Per-run replacement over an optional paragraph container (a shape's
`text_frame`, or a section's header or footer when present). -/
def replaceOptParas (needle repl : List Char) :
    Option (List PlainPara) → Option (List PlainPara) × Nat
  | none => (none, 0)
  | some ps =>
    let q := replaceParaList needle repl ps
    (some q.1, q.2)

/-- Pass over a body run for the anchored-drawing walk: when the run's element
tag ends in `drawing`, replace inside each descendant leaf text node. -/
def replaceDrawingRun (needle repl : List Char) (r : BodyRun) : BodyRun × Nat :=
  if r.isDrawingTag then
    let q := mapCount (repRun needle repl) r.leafTexts
    (⟨r.text, r.isDrawingTag, q.1⟩, q.2)
  else (r, 0)

/-- Whole-document fallback step on a body run: every descendant text node of
the body element tree (the run's own text node and its drawing leaf nodes) is
visited. -/
def fallbackRun (needle repl : List Char) (r : BodyRun) : BodyRun × Nat :=
  let qt := repRun needle repl r.text
  let ql := mapCount (repRun needle repl) r.leafTexts
  (⟨qt.1, r.isDrawingTag, ql.1⟩, qt.2 + ql.2)

/-- The value saved by `doc.save(new_file_path)` together with the function's
return pair `(replacement_count, new_file_path)`. -/
structure ReplaceResult where
  count : Nat
  newDoc : WordDoc
  newPath : List Char
deriving DecidableEq

/-- `NewRPASystem.replace_text_in_word`: the six accumulating passes (body
paragraph runs; table cells; inline shapes with a text frame; drawing-anchored
leaf nodes of body runs; the whole-document element walk, which revisits every
text node of the body part — body run texts, drawing leaves, table runs,
shape runs — plus the nodes nothing else reaches; headers and footers), then
the save under the `processedPath` name. -/
def replace_text_in_word (file_path : List Char) (now : PyDateTime)
    (search_text replace_text : List Char) (doc : WordDoc) : ReplaceResult :=
  let q1 := mapCount (replaceBodyPara search_text replace_text) doc.body
  let q2 := mapCount (mapCount (mapCount (replaceParaList search_text replace_text))) doc.tables
  let q3 := mapCount (replaceOptParas search_text replace_text) doc.shapes
  let q4 := mapCount (mapCount (replaceDrawingRun search_text replace_text)) q1.1
  let q5b := mapCount (mapCount (fallbackRun search_text replace_text)) q4.1
  let q5t := mapCount (mapCount (mapCount (replaceParaList search_text replace_text))) q2.1
  let q5s := mapCount (replaceOptParas search_text replace_text) q3.1
  let q5e := mapCount (repRun search_text replace_text) doc.extraTexts
  let q6 := mapCount (replaceOptParas search_text replace_text) doc.headers
  let q7 := mapCount (replaceOptParas search_text replace_text) doc.footers
  { count := q1.2 + q2.2 + q3.2 + q4.2 + (q5b.2 + q5t.2 + q5s.2 + q5e.2) + q6.2 + q7.2,
    newDoc := { body := q5b.1, tables := q5t.1, shapes := q5s.1, extraTexts := q5e.1,
                headers := q6.1, footers := q7.1 },
    newPath := processedPath file_path now }

/-- Replace inside a body run at every granularity the passes reach: its own
text node and each drawing leaf node. -/
def mapRunUnits (g : List Char → List Char) (r : BodyRun) : BodyRun :=
  ⟨g r.text, r.isDrawingTag, r.leafTexts.map g⟩

/-- Apply `g` to every text unit of the document, each exactly once. -/
def docMapUnits (g : List Char → List Char) (d : WordDoc) : WordDoc :=
  { body := d.body.map (List.map (mapRunUnits g)),
    tables := d.tables.map (List.map (List.map (List.map (List.map g)))),
    shapes := d.shapes.map (Option.map (List.map (List.map g))),
    extraTexts := d.extraTexts.map g,
    headers := d.headers.map (Option.map (List.map (List.map g))),
    footers := d.footers.map (Option.map (List.map (List.map g))) }

/-- Indicator of the predicate on one text unit. -/
def countIf (p : List Char → Bool) (t : List Char) : Nat := if p t then 1 else 0

/-- Number of text units of a body run satisfying `p`. -/
def runCountUnits (p : List Char → Bool) (r : BodyRun) : Nat :=
  countIf p r.text + (r.leafTexts.map (countIf p)).sum

/-- Number of text units of a plain-paragraph list satisfying `p`. -/
def parasCount (p : List Char → Bool) (ps : List PlainPara) : Nat :=
  (ps.map (fun q => (q.map (countIf p)).sum)).sum

def optParasCount (p : List Char → Bool) : Option (List PlainPara) → Nat
  | none => 0
  | some ps => parasCount p ps

/-- Number of text units of the whole document satisfying `p`, each unit
counted at most once. -/
def docCountUnits (p : List Char → Bool) (d : WordDoc) : Nat :=
  (d.body.map (fun para => (para.map (runCountUnits p)).sum)).sum
  + (d.tables.map (fun tb =>
      (tb.map (fun row => (row.map (parasCount p)).sum)).sum)).sum
  + (d.shapes.map (optParasCount p)).sum
  + (d.extraTexts.map (countIf p)).sum
  + (d.headers.map (optParasCount p)).sum
  + (d.footers.map (optParasCount p)).sum

/-- Which of `messagebox.showinfo` / `showwarning` / `showerror` the
word-processing handler raises. -/
inductive WordDialog
  | info
  | warning
  | error
deriving DecidableEq

/-- Observable outcome of `process_word_file`: the dialog shown, the Python
return value (`(True, path)`, `(False, None)`, or the bare `False` of the
missing-file branch, rendered as `(false, none)`), and the output file
actually saved by `replace_text_in_word` (`none` when no replacement call
ran). -/
structure WordProcessResult where
  dialog : WordDialog
  returnedSuccess : Bool
  returnedPath : Option (List Char)
  written : Option (List Char × WordDoc)
deriving DecidableEq

/-- `NewRPASystem.process_word_file`: build `f"{order}/{manufacturing}"`,
replace the single `REPLACEMENT_KEY` in the document, then report success when
the total count is positive and a warning when it is zero. -/
def process_word_file (username model manufacturing order : String)
    (file_path : Option (List Char)) (defaultWordExists : Bool)
    (now : PyDateTime) (doc : WordDoc) : WordProcessResult :=
  let run := fun (p : List Char) =>
    let replacement_text := order ++ "/" ++ manufacturing
    let r := replace_text_in_word p now REPLACEMENT_KEY replacement_text.data doc
    if 0 < r.count then
      ⟨WordDialog.info, true, some r.newPath, some (r.newPath, r.newDoc)⟩
    else
      (⟨WordDialog.warning, false, none, some (r.newPath, r.newDoc)⟩ : WordProcessResult)
  match file_path with
  | none =>
    if defaultWordExists then run DEFAULT_WORD_FILE
    else ⟨WordDialog.error, false, none, none⟩
  | some p => run p

/-- Bounds that every real `datetime.now()` value satisfies (four-digit year,
two-digit month, day, hour, minute, second). -/
def timestampInRange (t : PyDateTime) : Prop :=
  t.year < 10000 ∧ t.month < 100 ∧ t.day < 100 ∧ t.hour < 100 ∧ t.minute < 100 ∧ t.second < 100

instance (t : PyDateTime) : Decidable (timestampInRange t) := by
  unfold timestampInRange
  infer_instance

lemma getLast?_some {α : Type} {l : List α} {a : α} :
    l.getLast? = some a ↔ ∃ t, l = t ++ [a] := List.getLast?_eq_some_iff

lemma matchAnchored_iff {core : List Char → Bool} {P : List Char → Prop}
    (hcore : ∀ l, core l = true ↔ P l) (l : List Char) :
    matchAnchored core l = true ↔ (P l ∨ ∃ t, l = t ++ ['\n'] ∧ P t) := by
  simp only [matchAnchored, Bool.or_eq_true, Bool.and_eq_true, beq_iff_eq, hcore]
  apply or_congr_right
  constructor
  · rintro ⟨hlast, hP⟩
    obtain ⟨t, rfl⟩ := getLast?_some.mp hlast
    exact ⟨t, rfl, by rwa [List.dropLast_concat] at hP⟩
  · rintro ⟨t, rfl, hP⟩
    exact ⟨List.getLast?_concat t, by rwa [List.dropLast_concat]⟩

lemma matchManufacturingCore_iff (l : List Char) :
    matchManufacturingCore l = true ↔ manufacturingGrammarCore l := by
  constructor
  · intro h
    unfold matchManufacturingCore at h
    split at h
    case _ m c0 c1 c2 c3 d1 d2 d3 d4 c8 n c10 c11 =>
      simp only [Bool.and_eq_true, beq_iff_eq, isNonzeroDigit, decide_eq_true_eq,
        and_assoc] at h
      obtain ⟨h0, h1, h2, h3, hd1, hd2, hd3, hd4, h8, hn1, hn2, h10, h11⟩ := h
      refine ⟨d1, d2, d3, d4, n, ?_, hd1, hd2, hd3, hd4, hn1, hn2⟩
      rw [h0, h1, h2, h3, h8, h10, h11]
    case _ => exact absurd h (by simp)
  · rintro ⟨d1, d2, d3, d4, n, hs, h1, h2, h3, h4, h5, h6⟩
    rw [hs]
    simp [matchManufacturingCore, h1, h2, h3, h4, isNonzeroDigit, h5, h6]

lemma matchManufacturing_iff (s : String) :
    matchManufacturing s.data = true ↔ manufacturingGrammar s := by
  unfold matchManufacturing manufacturingGrammar
  exact matchAnchored_iff matchManufacturingCore_iff s.data

lemma matchModelCore_iff (l : List Char) :
    matchModelCore l = true ↔ modelGrammarCore l := by
  constructor
  · intro h
    unfold matchModelCore at h
    split at h
    case _ m a b c dash d1 d2 d3 d4 dot e1 e2 e3 e4 e5 e6 =>
      simp only [Bool.and_eq_true, Bool.or_eq_true, beq_iff_eq, and_assoc, or_assoc] at h
      obtain ⟨hpre, hdash, hd1, hd2, hd3, hd4, hdot, he1, he2, he3, he4, he5, he6⟩ := h
      refine ⟨[a, b, c], [d1, d2, d3, d4], [e1, e2, e3, e4, e5, e6], ?_, ?_, rfl, ?_, rfl, ?_⟩
      · rcases hpre with ⟨rfl, rfl, rfl⟩ | ⟨rfl, rfl, rfl⟩ | ⟨rfl, rfl, rfl⟩ |
          ⟨rfl, rfl, rfl⟩ | ⟨rfl, rfl, rfl⟩ <;> simp
      · rw [hdash, hdot]
        rfl
      · intro x hx
        simp only [List.mem_cons, List.not_mem_nil, or_false] at hx
        rcases hx with rfl | rfl | rfl | rfl <;> assumption
      · intro x hx
        simp only [List.mem_cons, List.not_mem_nil, or_false] at hx
        rcases hx with rfl | rfl | rfl | rfl | rfl | rfl <;> assumption
    case _ => exact absurd h (by simp)
  · rintro ⟨p, ds, es, hp, hs, hdsl, hds, hesl, hes⟩
    have hds4 : ∃ x1 x2 x3 x4, ds = [x1, x2, x3, x4] := by
      match ds, hdsl with
      | [x1, x2, x3, x4], _ => exact ⟨x1, x2, x3, x4, rfl⟩
    have hes6 : ∃ y1 y2 y3 y4 y5 y6, es = [y1, y2, y3, y4, y5, y6] := by
      match es, hesl with
      | [y1, y2, y3, y4, y5, y6], _ => exact ⟨y1, y2, y3, y4, y5, y6, rfl⟩
    obtain ⟨a1, a2, a3, a4, rfl⟩ := hds4
    obtain ⟨b1, b2, b3, b4, b5, b6, rfl⟩ := hes6
    simp only [List.mem_cons, List.not_mem_nil, or_false, forall_eq_or_imp, forall_eq] at hds hes
    rcases hp with rfl | rfl | rfl | rfl | rfl <;>
      · rw [hs]
        simp [matchModelCore, hds.1, hds.2.1, hds.2.2.1, hds.2.2.2, hes.1, hes.2.1,
          hes.2.2.1, hes.2.2.2.1, hes.2.2.2.2.1, hes.2.2.2.2.2]

lemma matchModel_iff (s : String) :
    matchModel s.data = true ↔ modelGrammar s := by
  unfold matchModel modelGrammar
  exact matchAnchored_iff matchModelCore_iff s.data

lemma validate_manufacturing_number_eq (s : String) (hs : s ≠ "") :
    validate_manufacturing_number s =
      if matchManufacturing s.data then ⟨true, ""⟩ else ⟨false, manufacturingFormatMsg⟩ := by
  simp only [validate_manufacturing_number, if_neg hs]
  cases h : matchManufacturing s.data <;> simp [h]

lemma validate_model_eq (s : String) (hs : s ≠ "") :
    validate_model s =
      if matchModel s.data then ⟨true, ""⟩ else ⟨false, modelFormatMsg⟩ := by
  simp only [validate_model, if_neg hs]
  cases h : matchModel s.data <;> simp [h]

lemma matchManufacturing_of_valid {m : String}
    (h : (validate_manufacturing_number m).valid = true) :
    matchManufacturing m.data = true := by
  by_cases hm : m = ""
  · subst hm; simp [validate_manufacturing_number] at h
  · rw [validate_manufacturing_number_eq m hm] at h
    cases hx : matchManufacturing m.data
    · rw [hx] at h; simp at h
    · rfl

lemma matchOrder_of_valid {o : String}
    (h : (validate_order_number o).valid = true) :
    matchOrder o.data = true := by
  by_cases ho : o = ""
  · subst ho; simp [validate_order_number] at h
  · simp only [validate_order_number, if_neg ho] at h
    cases hx : matchOrder o.data
    · rw [hx] at h; simp at h
    · rfl

lemma matchAnchored_length {core : List Char → Bool} {k : Nat}
    (hcore : ∀ l, core l = true → l.length = k) {l : List Char}
    (h : matchAnchored core l = true) : k ≤ l.length := by
  simp only [matchAnchored, Bool.or_eq_true, Bool.and_eq_true, beq_iff_eq] at h
  rcases h with h | ⟨hlast, h⟩
  · exact (hcore l h).ge
  · obtain ⟨t, rfl⟩ := getLast?_some.mp hlast
    rw [List.dropLast_concat] at h
    have ht := hcore t h
    simp [List.length_append, ht]

lemma matchManufacturingCore_length {l : List Char}
    (h : matchManufacturingCore l = true) : l.length = 12 := by
  unfold matchManufacturingCore at h
  split at h
  · rfl
  · exact absurd h (by simp)

lemma matchManufacturing_length {l : List Char} (h : matchManufacturing l = true) :
    12 ≤ l.length :=
  matchAnchored_length (fun _ hh => matchManufacturingCore_length hh) h

lemma matchOrderCore_length {l : List Char} (h : matchOrderCore l = true) :
    l.length = 5 := by
  unfold matchOrderCore at h
  split at h
  · rfl
  · exact absurd h (by simp)

lemma matchOrder_length {l : List Char} (h : matchOrder l = true) : 5 ≤ l.length :=
  matchAnchored_length (fun _ hh => matchOrderCore_length hh) h

lemma string_data_append (a b : String) : (a ++ b).data = a.data ++ b.data := rfl

/-- C1 (amended): `validate_manufacturing_number` fails with the empty-field
message when the input is blank, and otherwise accepts a string if and only if
the whole string — or everything before a single trailing newline, which the
regex `$` anchor tolerates — matches `J000 digit{4} 0 digit[1-9] 00` (a
12-character code whose `digit` positions admit any Unicode decimal digit),
any other non-empty string failing with the format message.  `"J00023150100"`
validates and `"J0002315100"` (one digit short) does not; `"J00023150200"`
*also* validates, because its trailing segment `0200` fits `0 digit[1-9] 00`
with digit `2`, and so do `"J00023150100\n"` (trailing newline) and
`"J000123４0100"` (full-width digit four). -/
theorem c1_manufacturing_number_validation :
    validate_manufacturing_number "" = ⟨false, manufacturingEmptyMsg⟩
    ∧ (∀ s : String, s ≠ "" →
        ((validate_manufacturing_number s).valid = true ↔ manufacturingGrammar s))
    ∧ (∀ s : String, s ≠ "" → ¬ manufacturingGrammar s →
        validate_manufacturing_number s = ⟨false, manufacturingFormatMsg⟩)
    ∧ (validate_manufacturing_number "J00023150100").valid = true
    ∧ (validate_manufacturing_number "J0002315100").valid = false
    ∧ (validate_manufacturing_number "J00023150200").valid = true
    ∧ (validate_manufacturing_number "J00023150100\n").valid = true
    ∧ (validate_manufacturing_number "J000123４0100").valid = true := by
  refine ⟨by decide, ?_, ?_, by decide, by decide, by decide, by decide, by decide⟩
  · intro s hs
    rw [validate_manufacturing_number_eq s hs]
    by_cases h : matchManufacturing s.data = true
    · rw [if_pos h]
      simpa using (matchManufacturing_iff s).mp h
    · rw [if_neg h]
      simp only [show (⟨false, manufacturingFormatMsg⟩ : VOutcome).valid = false from rfl]
      constructor
      · intro hfalse; cases hfalse
      · intro hg
        exact absurd ((matchManufacturing_iff s).mpr hg) h
  · intro s hs hg
    rw [validate_manufacturing_number_eq s hs, if_neg]
    intro h
    exact hg ((matchManufacturing_iff s).mp h)

/-- C1 witness: the general part of the theorem applied at `"J00023150100"`. -/
theorem c1_manufacturing_number_validation_witness :
    (validate_manufacturing_number "J00023150100").valid = true ↔
      manufacturingGrammar "J00023150100" :=
  c1_manufacturing_number_validation.2.1 "J00023150100" (by decide)

/-- C1 counterexample: the claim asserts that `"J00023150200"` does not
validate as a manufacturing number, but `validate_manufacturing_number`
accepts it (`0200` matches `0[1-9]00` with digit `2`). -/
theorem c1_claim_counterexample :
    (validate_manufacturing_number "J00023150200").valid = true := by decide

/-- C9 (amended): `validate_model` fails with the empty-field message when
the input is blank, and otherwise accepts a string if and only if the whole
string — or everything before a single trailing newline, which the regex `$`
anchor tolerates — matches `(100|200|201|350|351) "-" digit{4} "." digit{6}`,
where the `digit` positions admit any Unicode decimal digit; any other
non-empty string fails with the format-mismatch message.  For all five
supported prefixes, `prefix ++ "-2312.003000"` validates; `"100-2312.003000\n"`
(trailing newline) and `"100-231２.003000"` (full-width digit two) also
validate. -/
theorem c9_model_validation :
    validate_model "" = ⟨false, modelEmptyMsg⟩
    ∧ (∀ s : String, s ≠ "" → ((validate_model s).valid = true ↔ modelGrammar s))
    ∧ (∀ s : String, s ≠ "" → ¬ modelGrammar s →
        validate_model s = ⟨false, modelFormatMsg⟩)
    ∧ (∀ p ∈ (["100", "200", "201", "350", "351"] : List String),
        (validate_model (p ++ "-2312.003000")).valid = true)
    ∧ (validate_model "400-2312.003000").valid = false
    ∧ (validate_model "100-231.003000").valid = false
    ∧ (validate_model "1002312.003000").valid = false
    ∧ (validate_model "100-2312.003000\n").valid = true
    ∧ (validate_model "100-231２.003000").valid = true := by
  refine ⟨by decide, ?_, ?_, by decide, by decide, by decide, by decide, by decide, by decide⟩
  · intro s hs
    rw [validate_model_eq s hs]
    by_cases h : matchModel s.data = true
    · rw [if_pos h]
      simpa using (matchModel_iff s).mp h
    · rw [if_neg h]
      simp only [show (⟨false, modelFormatMsg⟩ : VOutcome).valid = false from rfl]
      constructor
      · intro hfalse; cases hfalse
      · intro hg
        exact absurd ((matchModel_iff s).mpr hg) h
  · intro s hs hg
    rw [validate_model_eq s hs, if_neg]
    intro h
    exact hg ((matchModel_iff s).mp h)

/-- C9 witness: the general part of the theorem applied at
`"201-2312.003000"`. -/
theorem c9_model_validation_witness :
    (validate_model "201-2312.003000").valid = true ↔ modelGrammar "201-2312.003000" :=
  c9_model_validation.2.1 "201-2312.003000" (by decide)

/-- C9 counterexample: the claim asserts that the whole string must match
`(100|200|201|350|351)-\d{4}\.\d{6}` (a full match) and that every deviation
fails with the format message, but `validate_model` accepts the 16-character
string `"100-2312.003000\n"`: the CPython `$` anchor also matches just before
a newline at the end of the string. -/
theorem c9_claim_counterexample :
    (validate_model "100-2312.003000\n").valid = true ∧
    ("100-2312.003000\n" : String).length = 16 := ⟨by decide, by decide⟩

/-- C2: for every manufacturing number and order number accepted by their
format rules, the consistency check passes iff the 4-character slice
`manufacturing[4:8]` (positions 5-8, 1-indexed) equals the 4-character slice
`order[1:5]` (positions 2-5) character for character; on failure the outcome
is invalid and its message contains both extracted segments.  Concretely,
`"J00023150100"` with `"O2315"` passes, and with `"O9999"` it fails with both
segments reported. -/
theorem c2_manufacturing_order_consistency :
    (∀ m o : String,
      (validate_manufacturing_number m).valid = true →
      (validate_order_number o).valid = true →
        (pySlice m 4 8).length = 4 ∧ (pySlice o 1 5).length = 4 ∧
        ((validate_manufacturing_order_consistency m o).valid = true ↔
          pySlice m 4 8 = pySlice o 1 5) ∧
        ((validate_manufacturing_order_consistency m o).valid = false →
          (pySlice m 4 8).data <:+: (validate_manufacturing_order_consistency m o).message.data ∧
          (pySlice o 1 5).data <:+: (validate_manufacturing_order_consistency m o).message.data))
    ∧ (validate_manufacturing_order_consistency "J00023150100" "O2315").valid = true
    ∧ (validate_manufacturing_order_consistency "J00023150100" "O9999").valid = false
    ∧ ("2315" : String).data <:+:
        (validate_manufacturing_order_consistency "J00023150100" "O9999").message.data
    ∧ ("9999" : String).data <:+:
        (validate_manufacturing_order_consistency "J00023150100" "O9999").message.data := by
  refine ⟨?_, by decide, by decide, by decide, by decide⟩
  intro m o hm ho
  have hml : 12 ≤ m.data.length := matchManufacturing_length (matchManufacturing_of_valid hm)
  have hol : 5 ≤ o.data.length := matchOrder_length (matchOrder_of_valid ho)
  refine ⟨?_, ?_, ?_, ?_⟩
  · show ((m.data.drop 4).take 4).length = 4
    simp only [List.length_take, List.length_drop]
    omega
  · show ((o.data.drop 1).take 4).length = 4
    simp only [List.length_take, List.length_drop]
    omega
  · simp only [validate_manufacturing_order_consistency]
    by_cases he : pySlice m 4 8 = pySlice o 1 5
    · simp [he]
    · simp [he]
  · intro hinv
    simp only [validate_manufacturing_order_consistency] at hinv ⊢
    by_cases he : pySlice m 4 8 = pySlice o 1 5
    · simp [he] at hinv
    · rw [if_pos he] at hinv ⊢
      constructor
      · exact ⟨("製造番号と受注番号が一致しません。\n製造番号の5-8文字目: " : String).data,
          ("\n受注番号の1-4文字目: " ++ pySlice o 1 5 ++
            "\nこれらは同じである必要があります。" : String).data, by
          simp only [string_data_append, List.append_assoc]⟩
      · exact ⟨("製造番号と受注番号が一致しません。\n製造番号の5-8文字目: " ++ pySlice m 4 8 ++
            "\n受注番号の1-4文字目: " : String).data,
          ("\nこれらは同じである必要があります。" : String).data, by
          simp only [string_data_append, List.append_assoc]⟩

/-- C2 witness: the general part of the theorem applied at
`"J00023150100"` / `"O2315"`. -/
theorem c2_manufacturing_order_consistency_witness :
    (pySlice "J00023150100" 4 8).length = 4 ∧ (pySlice "O2315" 1 5).length = 4 ∧
    ((validate_manufacturing_order_consistency "J00023150100" "O2315").valid = true ↔
      pySlice "J00023150100" 4 8 = pySlice "O2315" 1 5) ∧
    ((validate_manufacturing_order_consistency "J00023150100" "O2315").valid = false →
      (pySlice "J00023150100" 4 8).data <:+:
        (validate_manufacturing_order_consistency "J00023150100" "O2315").message.data ∧
      (pySlice "O2315" 1 5).data <:+:
        (validate_manufacturing_order_consistency "J00023150100" "O2315").message.data) :=
  c2_manufacturing_order_consistency.1 "J00023150100" "O2315" (by decide) (by decide)

/-- C3: `validate_inputs` is a pure function of its four string inputs; it
runs the field checks in the order username, model, manufacturing, order,
returns the first failing field's outcome (with the field name prefixed)
immediately without aggregation, runs the consistency check only when all
four field checks pass, and returns `valid = true` exactly when all four
field checks and the consistency check pass. -/
theorem c3_validation_pipeline (u m mf o : String) :
    ((validate_username u).valid = false →
      validate_inputs u m mf o = ⟨false, "ユーザ名: " ++ (validate_username u).message⟩)
    ∧ ((validate_username u).valid = true → (validate_model m).valid = false →
      validate_inputs u m mf o = ⟨false, "型番: " ++ (validate_model m).message⟩)
    ∧ ((validate_username u).valid = true → (validate_model m).valid = true →
      (validate_manufacturing_number mf).valid = false →
      validate_inputs u m mf o = ⟨false, "製造番号: " ++ (validate_manufacturing_number mf).message⟩)
    ∧ ((validate_username u).valid = true → (validate_model m).valid = true →
      (validate_manufacturing_number mf).valid = true → (validate_order_number o).valid = false →
      validate_inputs u m mf o = ⟨false, "受注番号: " ++ (validate_order_number o).message⟩)
    ∧ ((validate_username u).valid = true → (validate_model m).valid = true →
      (validate_manufacturing_number mf).valid = true → (validate_order_number o).valid = true →
      validate_inputs u m mf o =
        (if (validate_manufacturing_order_consistency mf o).valid then ⟨true, ""⟩
         else validate_manufacturing_order_consistency mf o))
    ∧ ((validate_inputs u m mf o).valid = true ↔
        (validate_username u).valid = true ∧ (validate_model m).valid = true ∧
        (validate_manufacturing_number mf).valid = true ∧
        (validate_order_number o).valid = true ∧
        (validate_manufacturing_order_consistency mf o).valid = true) := by
  refine ⟨?_, ?_, ?_, ?_, ?_, ?_⟩
  · intro h1
    simp [validate_inputs, fieldValidations, firstFieldError, h1]
  · intro h1 h2
    simp [validate_inputs, fieldValidations, firstFieldError, h1, h2]
  · intro h1 h2 h3
    simp [validate_inputs, fieldValidations, firstFieldError, h1, h2, h3]
  · intro h1 h2 h3 h4
    simp [validate_inputs, fieldValidations, firstFieldError, h1, h2, h3, h4]
  · intro h1 h2 h3 h4
    simp only [validate_inputs, fieldValidations, firstFieldError, h1, h2, h3, h4, if_true]
  · cases h1 : (validate_username u).valid <;>
      cases h2 : (validate_model m).valid <;>
      cases h3 : (validate_manufacturing_number mf).valid <;>
      cases h4 : (validate_order_number o).valid <;>
      cases h5 : (validate_manufacturing_order_consistency mf o).valid <;>
      simp [validate_inputs, fieldValidations, firstFieldError, h1, h2, h3, h4, h5]

/-- C3 witness: the theorem applied at concrete all-valid inputs (the GUI's
own input example). -/
theorem c3_validation_pipeline_witness :
    validate_inputs "マキシンコー" "201-2312.003000" "J00012340100" "O1234" =
      (if (validate_manufacturing_order_consistency "J00012340100" "O1234").valid
       then (⟨true, ""⟩ : VOutcome)
       else validate_manufacturing_order_consistency "J00012340100" "O1234") :=
  (c3_validation_pipeline "マキシンコー" "201-2312.003000" "J00012340100" "O1234").2.2.2.2.1
    (by decide) (by decide) (by decide) (by decide)

lemma pySplitext_append (p : List Char) : (pySplitext p).1 ++ (pySplitext p).2 = p := by
  simp only [pySplitext]
  split
  · split
    · simp
    · simp
  · simp

lemma digitChar_isDigit (d : Nat) : (digitChar d).isDigit = true := by
  unfold digitChar
  split <;> decide

lemma formatTimestamp_length (t : PyDateTime) : (formatTimestamp t).length = 15 := by
  simp [formatTimestamp, pad4, pad2]

lemma processedPath_ne (p : List Char) (t : PyDateTime) : processedPath p t ≠ p := by
  intro h
  have hlen := congrArg List.length h
  have hsplit := congrArg List.length (pySplitext_append p)
  simp only [processedPath, List.length_append] at hlen hsplit
  rw [formatTimestamp_length] at hlen
  have h11 : (("_processed_").data.length) = 11 := by decide
  omega

lemma formatTimestamp_shape (t : PyDateTime) :
    formatTimestamp t = (formatTimestamp t).take 8 ++ '_' :: (formatTimestamp t).drop 9
    ∧ (∀ c ∈ (formatTimestamp t).take 8, c.isDigit = true)
    ∧ (∀ c ∈ (formatTimestamp t).drop 9, c.isDigit = true) := by
  refine ⟨?_, ?_, ?_⟩
  · simp [formatTimestamp, pad4, pad2]
  · intro c hc
    simp [formatTimestamp, pad4, pad2] at hc
    rcases hc with rfl | rfl | rfl | rfl | rfl | rfl | rfl | rfl <;> exact digitChar_isDigit _
  · intro c hc
    simp [formatTimestamp, pad4, pad2] at hc
    rcases hc with rfl | rfl | rfl | rfl | rfl | rfl <;> exact digitChar_isDigit _

/-- C7: both writers name their output
`stem ++ "_processed_" ++ YYYYMMDD_HHMMSS ++ extension` over the source's
`splitext` decomposition (whose two parts reassemble to the source path); the
timestamp is 15 characters, eight digits, an underscore, six digits; and the
output path is never equal to the source path, so the source file is never
overwritten. -/
theorem c7_output_naming (p : List Char) (t : PyDateTime)
    (u m mf o : String) (de : Bool) (wb : Workbook)
    (needle repl : List Char) (doc : WordDoc) :
    processedPath p t =
      (pySplitext p).1 ++ ("_processed_").data ++ formatTimestamp t ++ (pySplitext p).2
    ∧ (pySplitext p).1 ++ (pySplitext p).2 = p
    ∧ processedPath p t ≠ p
    ∧ (write_to_excel u m mf o (some p) de wb t).newPath = some (processedPath p t)
    ∧ (replace_text_in_word p t needle repl doc).newPath = processedPath p t
    ∧ (formatTimestamp t).length = 15
    ∧ formatTimestamp t = (formatTimestamp t).take 8 ++ '_' :: (formatTimestamp t).drop 9
    ∧ (∀ c ∈ (formatTimestamp t).take 8, c.isDigit = true)
    ∧ (∀ c ∈ (formatTimestamp t).drop 9, c.isDigit = true) := by
  obtain ⟨h1, h2, h3⟩ := formatTimestamp_shape t
  exact ⟨by simp [processedPath, List.append_assoc], pySplitext_append p, processedPath_ne p t,
    rfl, rfl, formatTimestamp_length t, h1, h2, h3⟩

lemma lookupCell_setCell (sh : Sheet) (a v a' : String) :
    lookupCell (setCell sh a v) a' = if a' = a then some v else lookupCell sh a' := by
  induction sh with
  | nil =>
    simp only [setCell, lookupCell]
    by_cases h : a' = a
    · simp [h]
    · have h2 : ¬ a = a' := fun hh => h hh.symm
      simp [h, h2]
  | cons kv rest ih =>
    obtain ⟨k, w⟩ := kv
    simp only [setCell]
    by_cases hk : k = a
    · subst hk
      simp only [if_pos rfl, lookupCell]
      by_cases h : k = a'
      · subst h; simp
      · have h2 : ¬ a' = k := fun hh => h hh.symm
        simp [h, h2]
    · simp only [if_neg hk, lookupCell]
      by_cases h : k = a'
      · subst h
        have h2 : ¬ k = a := hk
        simp [fun hh : k = a => hk hh, h2]
      · simp only [if_neg h]
        rw [ih]

lemma lookupSheet_updateSheet (name : String) (f : Sheet → Sheet) (wb : Workbook) (a : String) :
    lookupSheet (updateSheet name f wb) a =
      if a = name then (lookupSheet wb name).map f else lookupSheet wb a := by
  induction wb with
  | nil =>
    simp only [updateSheet, lookupSheet]
    by_cases h : a = name <;> simp [h]
  | cons kv rest ih =>
    obtain ⟨k, sh⟩ := kv
    simp only [updateSheet]
    by_cases hk : k = name
    · subst hk
      simp only [if_pos rfl, lookupSheet]
      by_cases h : k = a
      · subst h; simp
      · have h2 : ¬ a = k := fun hh => h hh.symm
        simp [h, h2]
    · simp only [if_neg hk, lookupSheet]
      by_cases h : k = a
      · subst h
        simp [hk]
      · simp only [if_neg h]
        rw [ih]

lemma lookupSheet_condUpdate (name : String) (f : Sheet → Sheet) (wb : Workbook) (a : String) :
    lookupSheet (if hasSheet wb name then updateSheet name f wb else wb) a =
      if a = name then (lookupSheet wb name).map f else lookupSheet wb a := by
  by_cases h : hasSheet wb name = true
  · rw [if_pos h, lookupSheet_updateSheet]
  · rw [if_neg h]
    by_cases ha : a = name
    · subst ha
      cases hx : lookupSheet wb a with
      | none => simp [hx]
      | some sh => exact absurd (by simp [hasSheet, hx]) h
    · simp [ha]

/-- C8: `write_to_excel` on an explicitly supplied source succeeds for every
workbook, whichever subset of the three named sheets is absent; each present
named sheet receives exactly the four formatted label+value strings at its
fixed cell addresses (B4, B5, F4, F5 on `組立チェック表`; B3, B4, F2, F3 on the
other two), each absent named sheet is silently skipped (it stays absent and
raises no error), and no other sheet or cell is touched. -/
theorem c8_excel_absent_sheets (wb : Workbook) (u m mf o : String)
    (p : List Char) (de : Bool) (t : PyDateTime) :
    (write_to_excel u m mf o (some p) de wb t).success = true
    ∧ (write_to_excel u m mf o (some p) de wb t).saved =
        some (writeExcelSheets wb u m mf o)
    ∧ (∀ name : String, name ≠ assemblySheetName → name ≠ frameTestSheetName →
        name ≠ frameAssemblySheetName →
        lookupSheet (writeExcelSheets wb u m mf o) name = lookupSheet wb name)
    ∧ lookupSheet (writeExcelSheets wb u m mf o) assemblySheetName =
        (lookupSheet wb assemblySheetName).map (writeChecklistCells u m mf o)
    ∧ lookupSheet (writeExcelSheets wb u m mf o) frameTestSheetName =
        (lookupSheet wb frameTestSheetName).map (writeInspectionCells u m mf o)
    ∧ lookupSheet (writeExcelSheets wb u m mf o) frameAssemblySheetName =
        (lookupSheet wb frameAssemblySheetName).map (writeInspectionCells u m mf o)
    ∧ (∀ (sh : Sheet) (addr : String),
        lookupCell (writeChecklistCells u m mf o sh) addr =
          if addr = "F5" then some ("製造番号：" ++ mf)
          else if addr = "F4" then some ("受注番号：" ++ o)
          else if addr = "B5" then some ("機種-型番：" ++ m)
          else if addr = "B4" then some ("ユーザー名：" ++ u)
          else lookupCell sh addr)
    ∧ (∀ (sh : Sheet) (addr : String),
        lookupCell (writeInspectionCells u m mf o sh) addr =
          if addr = "F3" then some ("製造番号：" ++ mf)
          else if addr = "F2" then some ("受注番号：" ++ o)
          else if addr = "B4" then some ("機種-型番：" ++ m)
          else if addr = "B3" then some ("ユーザー名：" ++ u)
          else lookupCell sh addr) := by
  have hAB : assemblySheetName ≠ frameTestSheetName := by decide
  have hAC : assemblySheetName ≠ frameAssemblySheetName := by decide
  have hBC : frameTestSheetName ≠ frameAssemblySheetName := by decide
  refine ⟨rfl, rfl, ?_, ?_, ?_, ?_, ?_, ?_⟩
  · intro name h1 h2 h3
    simp only [writeExcelSheets, lookupSheet_condUpdate, if_neg h1, if_neg h2, if_neg h3]
  · simp [writeExcelSheets, lookupSheet_condUpdate, hAC, hAB]
  · simp [writeExcelSheets, lookupSheet_condUpdate, hBC, Ne.symm hAB]
  · simp [writeExcelSheets, lookupSheet_condUpdate, Ne.symm hAC, Ne.symm hBC]
  · intro sh addr
    simp only [writeChecklistCells, lookupCell_setCell]
  · intro sh addr
    simp only [writeInspectionCells, lookupCell_setCell]

/-- C8 witness: the theorem applied to a concrete workbook containing only the
first named sheet: an unrelated sheet name is untouched, the present sheet is
rewritten, and the two absent sheets stay absent. -/
theorem c8_excel_absent_sheets_witness :
    lookupSheet (writeExcelSheets [(assemblySheetName, [])] "u" "m" "f" "o") "その他" =
      lookupSheet [(assemblySheetName, [])] "その他"
    ∧ lookupSheet (writeExcelSheets [(assemblySheetName, [])] "u" "m" "f" "o")
        frameTestSheetName =
      (lookupSheet [(assemblySheetName, [])] frameTestSheetName).map
        (writeInspectionCells "u" "m" "f" "o")
    ∧ (write_to_excel "u" "m" "f" "o" (some ("a.xlsx").data) true
        [(assemblySheetName, [])] ⟨2025, 1, 2, 3, 4, 5⟩).success = true :=
  ⟨(c8_excel_absent_sheets [(assemblySheetName, [])] "u" "m" "f" "o" ("a.xlsx").data true
      ⟨2025, 1, 2, 3, 4, 5⟩).2.2.1 "その他" (by decide) (by decide) (by decide),
   (c8_excel_absent_sheets [(assemblySheetName, [])] "u" "m" "f" "o" ("a.xlsx").data true
      ⟨2025, 1, 2, 3, 4, 5⟩).2.2.2.2.1,
   (c8_excel_absent_sheets [(assemblySheetName, [])] "u" "m" "f" "o" ("a.xlsx").data true
      ⟨2025, 1, 2, 3, 4, 5⟩).1⟩

lemma containsSub_iff (n : List Char) : ∀ l : List Char, containsSub n l = true ↔ n <:+: l := by
  intro l
  induction l with
  | nil =>
    simp only [containsSub, List.isEmpty_iff]
    exact ⟨fun h => h ▸ List.infix_refl [], fun h => List.eq_nil_of_infix_nil h⟩
  | cons c rest ih =>
    simp only [containsSub, Bool.or_eq_true, List.isPrefixOf_iff_prefix, ih,
      List.infix_cons_iff]

lemma pyReplaceFuel_cons_eq (n r : List Char) (fuel : Nat) (c : Char) (rest : List Char) :
    pyReplaceFuel n r (fuel + 1) (c :: rest) =
      if n ≠ [] ∧ n.isPrefixOf (c :: rest) = true then
        r ++ pyReplaceFuel n r fuel ((c :: rest).drop n.length)
      else c :: pyReplaceFuel n r fuel rest := rfl

lemma pyReplaceFuel_fuel (n r : List Char) :
    ∀ f1 f2 t, t.length ≤ f1 → t.length ≤ f2 →
      pyReplaceFuel n r f1 t = pyReplaceFuel n r f2 t := by
  intro f1
  induction f1 with
  | zero =>
    intro f2 t h1 _
    have : t = [] := List.eq_nil_of_length_eq_zero (Nat.le_zero.mp h1)
    subst this
    cases f2 <;> rfl
  | succ f1 ih =>
    intro f2 t h1 h2
    cases t with
    | nil => cases f2 <;> rfl
    | cons c rest =>
      cases f2 with
      | zero => exact absurd h2 (by simp)
      | succ f2 =>
        rw [pyReplaceFuel_cons_eq, pyReplaceFuel_cons_eq]
        by_cases hc : n ≠ [] ∧ n.isPrefixOf (c :: rest) = true
        · rw [if_pos hc, if_pos hc]
          have hlen : ((c :: rest).drop n.length).length ≤ rest.length := by
            have : 1 ≤ n.length := List.length_pos.mpr hc.1
            simp only [List.length_drop, List.length_cons]
            omega
          rw [ih f2 _ (le_trans hlen (Nat.succ_le_succ_iff.mp h1))
            (le_trans hlen (Nat.succ_le_succ_iff.mp h2))]
        · rw [if_neg hc, if_neg hc]
          rw [ih f2 rest (Nat.succ_le_succ_iff.mp h1) (Nat.succ_le_succ_iff.mp h2)]

lemma pyReplace_nil_eq (n r : List Char) : pyReplace n r [] = [] := rfl

lemma pyReplace_cons_eq (n r : List Char) (hn : n ≠ []) (c : Char) (rest : List Char) :
    pyReplace n r (c :: rest) =
      if n.isPrefixOf (c :: rest) = true then
        r ++ pyReplace n r ((c :: rest).drop n.length)
      else c :: pyReplace n r rest := by
  show pyReplaceFuel n r (rest.length + 1) (c :: rest) = _
  rw [pyReplaceFuel_cons_eq]
  have hlen : ((c :: rest).drop n.length).length ≤ rest.length := by
    have : 1 ≤ n.length := List.length_pos.mpr hn
    simp only [List.length_drop, List.length_cons]
    omega
  by_cases hp : n.isPrefixOf (c :: rest) = true
  · rw [if_pos ⟨hn, hp⟩, if_pos hp, pyReplace,
      pyReplaceFuel_fuel n r _ _ _ (le_refl _) hlen]
  · rw [if_neg (fun hh => hp hh.2), if_neg hp, pyReplace]

lemma pyReplace_of_not_contains (n r : List Char) :
    ∀ t, containsSub n t = false → pyReplace n r t = t := by
  have key : ∀ N t, t.length ≤ N → containsSub n t = false → pyReplace n r t = t := by
    intro N
    induction N with
    | zero =>
      intro t ht _
      have : t = [] := List.eq_nil_of_length_eq_zero (Nat.le_zero.mp ht)
      subst this; rfl
    | succ N ih =>
      intro t ht hc
      cases t with
      | nil => rfl
      | cons c rest =>
        have hn : n ≠ [] := by
          intro he
          subst he
          simp [containsSub, List.isPrefixOf] at hc
        simp only [containsSub, Bool.or_eq_false_iff] at hc
        rw [pyReplace_cons_eq n r hn, if_neg (by simp [hc.1])]
        exact congrArg (c :: ·) (ih rest (Nat.succ_le_succ_iff.mp ht) hc.2)
  exact fun t => key t.length t (le_refl _)

lemma pyReplace_leading_transfer (n r : List Char) (hn : n ≠ []) (hr : r ≠ [])
    (hd : ∀ c ∈ r, c ∉ n) :
    ∀ t s, s ≠ [] → s <:+ n → s <+: pyReplace n r t → s <+: t := by
  have key : ∀ N t, t.length ≤ N → ∀ s, s ≠ [] → s <:+ n →
      s <+: pyReplace n r t → s <+: t := by
    intro N
    induction N with
    | zero =>
      intro t ht s hs _ hpre
      have : t = [] := List.eq_nil_of_length_eq_zero (Nat.le_zero.mp ht)
      subst this
      rw [pyReplace_nil_eq] at hpre
      exact absurd (List.prefix_nil.mp hpre) hs
    | succ N ih =>
      intro t ht s hs hsn hpre
      cases t with
      | nil =>
        rw [pyReplace_nil_eq] at hpre
        exact absurd (List.prefix_nil.mp hpre) hs
      | cons c rest =>
        rw [pyReplace_cons_eq n r hn] at hpre
        by_cases hp : n.isPrefixOf (c :: rest) = true
        · rw [if_pos hp] at hpre
          exfalso
          cases s with
          | nil => exact hs rfl
          | cons s0 s' =>
            cases hre : r with
            | nil => exact hr hre
            | cons r0 r' =>
              rw [hre] at hpre
              obtain ⟨u, hu⟩ := hpre
              simp only [List.cons_append] at hu
              injection hu with hs0 hu2
              have hmem : s0 ∈ n := List.IsSuffix.subset hsn (List.mem_cons_self s0 s')
              exact hd r0 (hre ▸ List.mem_cons_self r0 r') (hs0 ▸ hmem)
        · rw [if_neg hp] at hpre
          cases s with
          | nil => exact absurd rfl hs
          | cons s0 s' =>
            obtain ⟨u, hu⟩ := hpre
            simp only [List.cons_append, List.cons.injEq] at hu
            obtain ⟨hs0, hu'⟩ := hu
            subst hs0
            cases s' with
            | nil => exact ⟨rest, rfl⟩
            | cons s1 s'' =>
              have htail : (s1 :: s'') <+: pyReplace n r rest := ⟨u, hu'⟩
              have hsuf : (s1 :: s'') <:+ n :=
                List.IsSuffix.trans ⟨[s0], rfl⟩ hsn
              have := ih rest (Nat.succ_le_succ_iff.mp ht) (s1 :: s'') (by simp) hsuf htail
              obtain ⟨v, hv⟩ := this
              exact ⟨v, by simp [hv]⟩
  exact fun t => key t.length t (le_refl _)

lemma pyReplace_removes_marker (n r : List Char) (hn : n ≠ []) (hr : r ≠ [])
    (hd : ∀ c ∈ r, c ∉ n) :
    ∀ t, ¬ n <:+: pyReplace n r t := by
  have key : ∀ N t, t.length ≤ N → ¬ n <:+: pyReplace n r t := by
    intro N
    induction N with
    | zero =>
      intro t ht hinf
      have : t = [] := List.eq_nil_of_length_eq_zero (Nat.le_zero.mp ht)
      subst this
      rw [pyReplace_nil_eq] at hinf
      exact hn (List.eq_nil_of_infix_nil hinf)
    | succ N ih =>
      intro t ht hinf
      cases t with
      | nil =>
        rw [pyReplace_nil_eq] at hinf
        exact hn (List.eq_nil_of_infix_nil hinf)
      | cons c rest =>
        rw [pyReplace_cons_eq n r hn] at hinf
        by_cases hp : n.isPrefixOf (c :: rest) = true
        · rw [if_pos hp] at hinf
          obtain ⟨pre, post, heq⟩ := hinf
          rw [List.append_assoc] at heq
          rcases List.append_eq_append_iff.mp heq with ⟨a', ha1, ha2⟩ | ⟨c', hc1, hc2⟩
          · cases a' with
            | nil =>
              have hlen : ((c :: rest).drop n.length).length ≤ rest.length := by
                have : 1 ≤ n.length := List.length_pos.mpr hn
                simp only [List.length_drop, List.length_cons]
                omega
              exact ih _ (le_trans hlen (Nat.succ_le_succ_iff.mp ht))
                ⟨[], post, by simpa using ha2⟩
            | cons a0 a'' =>
              cases n with
              | nil => exact hn rfl
              | cons n0 n' =>
                simp only [List.cons_append, List.cons.injEq] at ha2
                have ha0 : a0 ∈ r := ha1 ▸ List.mem_append_right pre
                  (List.mem_cons_self a0 a'')
                exact hd a0 ha0 (ha2.1 ▸ List.mem_cons_self n0 n')
          · have hlen : ((c :: rest).drop n.length).length ≤ rest.length := by
              have : 1 ≤ n.length := List.length_pos.mpr hn
              simp only [List.length_drop, List.length_cons]
              omega
            exact ih _ (le_trans hlen (Nat.succ_le_succ_iff.mp ht))
              ⟨c', post, by rw [hc2, List.append_assoc]⟩
        · rw [if_neg hp] at hinf
          rcases List.infix_cons_iff.mp hinf with hpre | hrest
          · cases n with
            | nil => exact hn rfl
            | cons n0 n' =>
              rw [List.cons_prefix_cons] at hpre
              obtain ⟨rfl, hpre'⟩ := hpre
              cases n' with
              | nil =>
                apply hp
                rw [List.isPrefixOf_iff_prefix, List.cons_prefix_cons]
                exact ⟨rfl, List.nil_prefix⟩
              | cons n1 n'' =>
                have := pyReplace_leading_transfer (n0 :: n1 :: n'') r hn hr hd rest
                  (n1 :: n'') (by simp) ⟨[n0], rfl⟩ hpre'
                apply hp
                rw [List.isPrefixOf_iff_prefix, List.cons_prefix_cons]
                exact ⟨rfl, this⟩
          · exact ih rest (Nat.succ_le_succ_iff.mp ht) hrest
  exact fun t => key t.length t (le_refl _)

lemma containsSub_pyReplace_eq_false (n r : List Char) (hn : n ≠ []) (hr : r ≠ [])
    (hd : ∀ c ∈ r, c ∉ n) (t : List Char) :
    containsSub n (pyReplace n r t) = false := by
  cases h : containsSub n (pyReplace n r t)
  · rfl
  · exact absurd ((containsSub_iff n _).mp h) (pyReplace_removes_marker n r hn hr hd t)

lemma pyReplace_idem (n r : List Char) (hn : n ≠ []) (hr : r ≠ [])
    (hd : ∀ c ∈ r, c ∉ n) (t : List Char) :
    pyReplace n r (pyReplace n r t) = pyReplace n r t :=
  pyReplace_of_not_contains n r _ (containsSub_pyReplace_eq_false n r hn hr hd t)

lemma pyReplace_ne_of_contains (n r : List Char) (hn : n ≠ []) (hr : r ≠ [])
    (hd : ∀ c ∈ r, c ∉ n) :
    ∀ t, containsSub n t = true → pyReplace n r t ≠ t := by
  have key : ∀ N t, t.length ≤ N → containsSub n t = true → pyReplace n r t ≠ t := by
    intro N
    induction N with
    | zero =>
      intro t ht hc
      have : t = [] := List.eq_nil_of_length_eq_zero (Nat.le_zero.mp ht)
      subst this
      have := (containsSub_iff n []).mp hc
      exact absurd (List.eq_nil_of_infix_nil this) hn
    | succ N ih =>
      intro t ht hc heq
      cases t with
      | nil =>
        have := (containsSub_iff n []).mp hc
        exact hn (List.eq_nil_of_infix_nil this)
      | cons c rest =>
        rw [pyReplace_cons_eq n r hn] at heq
        by_cases hp : n.isPrefixOf (c :: rest) = true
        · rw [if_pos hp] at heq
          cases hre : r with
          | nil => exact hr hre
          | cons r0 r' =>
            rw [hre] at heq
            simp only [List.cons_append, List.cons.injEq] at heq
            have hr0 : r0 ∈ r := hre ▸ List.mem_cons_self r0 r'
            cases n with
            | nil => exact hn rfl
            | cons n0 n' =>
              rw [List.isPrefixOf_iff_prefix, List.cons_prefix_cons] at hp
              exact hd r0 hr0 (heq.1 ▸ hp.1 ▸ List.mem_cons_self n0 n')
        · rw [if_neg hp] at heq
          simp only [containsSub, Bool.or_eq_true] at hc
          rcases hc with hc | hc
          · exact hp hc
          · have := ih rest (Nat.succ_le_succ_iff.mp ht) hc
            simp only [List.cons.injEq] at heq
            exact this heq.2
  exact fun t => key t.length t (le_refl _)

lemma pySplitFuel_cons_eq (n : List Char) (fuel : Nat) (c : Char) (rest : List Char) :
    pySplitFuel n (fuel + 1) (c :: rest) =
      if n ≠ [] ∧ n.isPrefixOf (c :: rest) = true then
        [] :: pySplitFuel n fuel ((c :: rest).drop n.length)
      else
        match pySplitFuel n fuel rest with
        | [] => [[c]]
        | q :: qs => (c :: q) :: qs := rfl

lemma pySplitFuel_ne_nil (n : List Char) : ∀ fuel t, pySplitFuel n fuel t ≠ [] := by
  intro fuel
  induction fuel with
  | zero => intro t; cases t <;> simp [pySplitFuel]
  | succ fuel ih =>
    intro t
    cases t with
    | nil => simp [pySplitFuel]
    | cons c rest =>
      rw [pySplitFuel_cons_eq]
      by_cases hc : n ≠ [] ∧ n.isPrefixOf (c :: rest) = true
      · rw [if_pos hc]; simp
      · rw [if_neg hc]
        cases hs : pySplitFuel n fuel rest <;> simp

lemma pySplitFuel_fuel (n : List Char) :
    ∀ f1 f2 t, t.length ≤ f1 → t.length ≤ f2 →
      pySplitFuel n f1 t = pySplitFuel n f2 t := by
  intro f1
  induction f1 with
  | zero =>
    intro f2 t h1 _
    have : t = [] := List.eq_nil_of_length_eq_zero (Nat.le_zero.mp h1)
    subst this
    cases f2 <;> rfl
  | succ f1 ih =>
    intro f2 t h1 h2
    cases t with
    | nil => cases f2 <;> rfl
    | cons c rest =>
      cases f2 with
      | zero => exact absurd h2 (by simp)
      | succ f2 =>
        rw [pySplitFuel_cons_eq, pySplitFuel_cons_eq]
        by_cases hc : n ≠ [] ∧ n.isPrefixOf (c :: rest) = true
        · rw [if_pos hc, if_pos hc]
          have hlen : ((c :: rest).drop n.length).length ≤ rest.length := by
            have : 1 ≤ n.length := List.length_pos.mpr hc.1
            simp only [List.length_drop, List.length_cons]
            omega
          rw [ih f2 _ (le_trans hlen (Nat.succ_le_succ_iff.mp h1))
            (le_trans hlen (Nat.succ_le_succ_iff.mp h2))]
        · rw [if_neg hc, if_neg hc]
          rw [ih f2 rest (Nat.succ_le_succ_iff.mp h1) (Nat.succ_le_succ_iff.mp h2)]

lemma pySplitOn_nil_eq (n : List Char) : pySplitOn n [] = [[]] := rfl

lemma pySplitOn_cons_eq (n : List Char) (hn : n ≠ []) (c : Char) (rest : List Char) :
    pySplitOn n (c :: rest) =
      if n.isPrefixOf (c :: rest) = true then
        [] :: pySplitOn n ((c :: rest).drop n.length)
      else
        match pySplitOn n rest with
        | [] => [[c]]
        | q :: qs => (c :: q) :: qs := by
  show pySplitFuel n (rest.length + 1) (c :: rest) = _
  rw [pySplitFuel_cons_eq]
  have hlen : ((c :: rest).drop n.length).length ≤ rest.length := by
    have : 1 ≤ n.length := List.length_pos.mpr hn
    simp only [List.length_drop, List.length_cons]
    omega
  by_cases hp : n.isPrefixOf (c :: rest) = true
  · rw [if_pos ⟨hn, hp⟩, if_pos hp, pySplitOn,
      pySplitFuel_fuel n _ _ _ (le_refl _) hlen]
  · rw [if_neg (fun hh => hp hh.2), if_neg hp, pySplitOn]

lemma pySplitOn_ne_nil (n t : List Char) : pySplitOn n t ≠ [] :=
  pySplitFuel_ne_nil n t.length t

lemma intercalate_pair_eq (sep x q : List Char) (qs : List (List Char)) :
    List.intercalate sep (x :: q :: qs) = x ++ sep ++ List.intercalate sep (q :: qs) := by
  simp [List.intercalate, List.intersperse, List.append_assoc]

lemma intercalate_one_eq (sep x : List Char) : List.intercalate sep [x] = x := by
  simp [List.intercalate, List.intersperse]

/-- The Python identity `s.replace(a, b) == b.join(s.split(a))` for a
non-empty search string: every leftmost non-overlapping occurrence is
replaced in the one call. -/
lemma pyReplace_eq_intercalate (n r : List Char) (hn : n ≠ []) :
    ∀ t, pyReplace n r t = List.intercalate r (pySplitOn n t) := by
  have key : ∀ N t, t.length ≤ N →
      pyReplace n r t = List.intercalate r (pySplitOn n t) := by
    intro N
    induction N with
    | zero =>
      intro t ht
      have : t = [] := List.eq_nil_of_length_eq_zero (Nat.le_zero.mp ht)
      subst this
      rw [pyReplace_nil_eq, pySplitOn_nil_eq, intercalate_one_eq]
    | succ N ih =>
      intro t ht
      cases t with
      | nil => rw [pyReplace_nil_eq, pySplitOn_nil_eq, intercalate_one_eq]
      | cons c rest =>
        rw [pyReplace_cons_eq n r hn, pySplitOn_cons_eq n hn]
        have hlen : ((c :: rest).drop n.length).length ≤ rest.length := by
          have : 1 ≤ n.length := List.length_pos.mpr hn
          simp only [List.length_drop, List.length_cons]
          omega
        by_cases hp : n.isPrefixOf (c :: rest) = true
        · rw [if_pos hp, if_pos hp]
          cases hs : pySplitOn n ((c :: rest).drop n.length) with
          | nil => exact absurd hs (pySplitOn_ne_nil n _)
          | cons q qs =>
            rw [intercalate_pair_eq]
            have := ih _ (le_trans hlen (Nat.succ_le_succ_iff.mp ht))
            rw [this, hs]
            simp [List.append_assoc]
        · rw [if_neg hp, if_neg hp]
          have hrec := ih rest (Nat.succ_le_succ_iff.mp ht)
          cases hs : pySplitOn n rest with
          | nil => exact absurd hs (pySplitOn_ne_nil n _)
          | cons q qs =>
            cases qs with
            | nil =>
              rw [hrec, hs, intercalate_one_eq, intercalate_one_eq]
            | cons q2 qs' =>
              rw [hrec, hs, intercalate_pair_eq, intercalate_pair_eq]
              simp
  exact fun t => key t.length t (le_refl _)

lemma mapCount_eq_of_pointwise {α : Type} (f : α → α × Nat) (g : α → α) (k : α → Nat)
    (l : List α) (hf : ∀ a ∈ l, f a = (g a, k a)) :
    mapCount f l = (l.map g, (l.map k).sum) := by
  simp only [mapCount]
  have h1 : (l.map fun a => (f a).1) = l.map g :=
    List.map_congr_left (fun a ha => by rw [hf a ha])
  have h2 : (l.map fun a => (f a).2) = l.map k :=
    List.map_congr_left (fun a ha => by rw [hf a ha])
  rw [h1, h2]

lemma mapCount_noop {α : Type} (f : α → α × Nat) (l : List α)
    (h : ∀ a ∈ l, f a = (a, 0)) : mapCount f l = (l, 0) := by
  rw [mapCount_eq_of_pointwise f id (fun _ => 0) l (by simpa using h)]
  simp

lemma sum_map_add {α : Type} (f g : α → Nat) (l : List α) :
    (l.map (fun a => f a + g a)).sum = (l.map f).sum + (l.map g).sum := by
  induction l with
  | nil => simp
  | cons a l ih => simp [ih]; omega

lemma repRun_eq (n r t : List Char) :
    repRun n r t = (pyReplace n r t, countIf (containsSub n) t) := by
  simp only [repRun, countIf]
  by_cases h : containsSub n t = true
  · rw [if_pos h, if_pos h]
  · rw [if_neg h, if_neg h,
      pyReplace_of_not_contains n r t (by revert h; cases containsSub n t <;> simp)]

lemma repRun_replaced (n r : List Char) (hn : n ≠ []) (hr : r ≠ [])
    (hd : ∀ c ∈ r, c ∉ n) (t : List Char) :
    repRun n r (pyReplace n r t) = (pyReplace n r t, 0) := by
  simp [repRun, containsSub_pyReplace_eq_false n r hn hr hd t]

lemma replacePlainPara_eq (n r : List Char) (q : PlainPara) :
    replacePlainPara n r q =
      (q.map (pyReplace n r), (q.map (countIf (containsSub n))).sum) :=
  mapCount_eq_of_pointwise _ _ _ q (fun t _ => repRun_eq n r t)

lemma replaceParaList_eq (n r : List Char) (ps : List PlainPara) :
    replaceParaList n r ps =
      (ps.map (List.map (pyReplace n r)),
       (ps.map (fun q => (q.map (countIf (containsSub n))).sum)).sum) :=
  mapCount_eq_of_pointwise _ _ _ ps (fun q _ => replacePlainPara_eq n r q)

lemma replaceParaList_eq' (n r : List Char) (ps : List PlainPara) :
    replaceParaList n r ps =
      (ps.map (List.map (pyReplace n r)), parasCount (containsSub n) ps) :=
  replaceParaList_eq n r ps

lemma replaceOptParas_eq (n r : List Char) (op : Option (List PlainPara)) :
    replaceOptParas n r op =
      (op.map (List.map (List.map (pyReplace n r))), optParasCount (containsSub n) op) := by
  cases op with
  | none => rfl
  | some ps =>
    simp only [replaceOptParas, replaceParaList_eq' n r ps, Option.map_some]
    rfl

lemma replaceDrawingRun_eq (n r : List Char) (rn : BodyRun) :
    replaceDrawingRun n r rn =
      (⟨rn.text, rn.isDrawingTag,
         if rn.isDrawingTag then rn.leafTexts.map (pyReplace n r) else rn.leafTexts⟩,
       if rn.isDrawingTag then (rn.leafTexts.map (countIf (containsSub n))).sum else 0) := by
  simp only [replaceDrawingRun]
  by_cases h : rn.isDrawingTag = true
  · rw [if_pos h]
    simp only [mapCount_eq_of_pointwise _ _ _ rn.leafTexts (fun t _ => repRun_eq n r t)]
    simp [h]
  · rw [if_neg h]
    have hb : rn.isDrawingTag = false := by revert h; cases rn.isDrawingTag <;> simp
    simp only [hb, Bool.false_eq_true, if_false]
    rw [← hb]

lemma fallbackRun_eq (n r : List Char) (rn : BodyRun) :
    fallbackRun n r rn =
      (mapRunUnits (pyReplace n r) rn,
       countIf (containsSub n) rn.text + (rn.leafTexts.map (countIf (containsSub n))).sum) := by
  simp only [fallbackRun, mapRunUnits, repRun_eq,
    mapCount_eq_of_pointwise _ _ _ rn.leafTexts (fun t _ => repRun_eq n r t)]

lemma replaceBodyPara_eq (n r : List Char) (p : BodyPara) :
    replaceBodyPara n r p =
      (p.map (fun rn => (⟨pyReplace n r rn.text, rn.isDrawingTag, rn.leafTexts⟩ : BodyRun)),
       (p.map (fun rn => countIf (containsSub n) rn.text)).sum) := by
  simp only [replaceBodyPara]
  by_cases hg : containsSub n (bodyParaText p) = true
  · rw [if_pos hg]
    exact mapCount_eq_of_pointwise _ _ _ p (fun rn _ => by rw [repRun_eq])
  · rw [if_neg hg]
    have hfree : ∀ rn ∈ p, containsSub n rn.text = false := by
      intro rn hrn
      cases hx : containsSub n rn.text
      · rfl
      · exfalso
        apply hg
        rw [containsSub_iff]
        exact List.IsInfix.trans ((containsSub_iff n rn.text).mp hx)
          (List.infix_of_mem_flatten (List.mem_map_of_mem BodyRun.text hrn))
    have h1 : p.map (fun rn => (⟨pyReplace n r rn.text, rn.isDrawingTag, rn.leafTexts⟩ : BodyRun)) = p := by
      have := List.map_congr_left (l := p)
        (f := fun rn => (⟨pyReplace n r rn.text, rn.isDrawingTag, rn.leafTexts⟩ : BodyRun))
        (g := id)
        (fun rn hrn => by
          show (⟨pyReplace n r rn.text, rn.isDrawingTag, rn.leafTexts⟩ : BodyRun) = rn
          rw [pyReplace_of_not_contains n r _ (hfree rn hrn)])
      rw [this, List.map_id]
    have h2 : (p.map (fun rn => countIf (containsSub n) rn.text)).sum = 0 := by
      apply List.sum_eq_zero
      intro x hx
      obtain ⟨rn, hrn, rfl⟩ := List.mem_map.mp hx
      simp [countIf, hfree rn hrn]
    rw [h1, h2]

lemma replacePlainPara_second (n r : List Char) (hn : n ≠ []) (hr : r ≠ [])
    (hd : ∀ c ∈ r, c ∉ n) (q : PlainPara) :
    replacePlainPara n r (q.map (pyReplace n r)) = (q.map (pyReplace n r), 0) := by
  apply mapCount_noop
  intro t ht
  obtain ⟨t0, _, rfl⟩ := List.mem_map.mp ht
  exact repRun_replaced n r hn hr hd t0

lemma replaceParaList_second (n r : List Char) (hn : n ≠ []) (hr : r ≠ [])
    (hd : ∀ c ∈ r, c ∉ n) (ps : List PlainPara) :
    replaceParaList n r (ps.map (List.map (pyReplace n r))) =
      (ps.map (List.map (pyReplace n r)), 0) := by
  apply mapCount_noop
  intro q hq
  obtain ⟨q0, _, rfl⟩ := List.mem_map.mp hq
  exact replacePlainPara_second n r hn hr hd q0

lemma replaceOptParas_second (n r : List Char) (hn : n ≠ []) (hr : r ≠ [])
    (hd : ∀ c ∈ r, c ∉ n) (op : Option (List PlainPara)) :
    replaceOptParas n r (op.map (List.map (List.map (pyReplace n r)))) =
      (op.map (List.map (List.map (pyReplace n r))), 0) := by
  cases op with
  | none => rfl
  | some ps =>
    show replaceOptParas n r (some (ps.map (List.map (pyReplace n r)))) =
      (some (ps.map (List.map (pyReplace n r))), 0)
    simp only [replaceOptParas]
    rw [replaceParaList_second n r hn hr hd ps]

lemma replaceCells_second (n r : List Char) (hn : n ≠ []) (hr : r ≠ [])
    (hd : ∀ c ∈ r, c ∉ n) (row : List (List PlainPara)) :
    mapCount (replaceParaList n r) (row.map (List.map (List.map (pyReplace n r)))) =
      (row.map (List.map (List.map (pyReplace n r))), 0) := by
  apply mapCount_noop
  intro cell hcell
  obtain ⟨c0, _, rfl⟩ := List.mem_map.mp hcell
  exact replaceParaList_second n r hn hr hd c0

lemma replaceRows_second (n r : List Char) (hn : n ≠ []) (hr : r ≠ [])
    (hd : ∀ c ∈ r, c ∉ n) (tb : List (List (List PlainPara))) :
    mapCount (mapCount (replaceParaList n r))
        (tb.map (List.map (List.map (List.map (pyReplace n r))))) =
      (tb.map (List.map (List.map (List.map (pyReplace n r)))), 0) := by
  apply mapCount_noop
  intro row hrow
  obtain ⟨r0, _, rfl⟩ := List.mem_map.mp hrow
  exact replaceCells_second n r hn hr hd r0

lemma replaceTables_second (n r : List Char) (hn : n ≠ []) (hr : r ≠ [])
    (hd : ∀ c ∈ r, c ∉ n) (tables : List (List (List (List PlainPara)))) :
    mapCount (mapCount (mapCount (replaceParaList n r)))
        (tables.map (List.map (List.map (List.map (List.map (pyReplace n r)))))) =
      (tables.map (List.map (List.map (List.map (List.map (pyReplace n r))))), 0) := by
  apply mapCount_noop
  intro tb htb
  obtain ⟨t0, _, rfl⟩ := List.mem_map.mp htb
  exact replaceRows_second n r hn hr hd t0

lemma run_compose_newDoc (n r : List Char) (hn : n ≠ []) (hr : r ≠ [])
    (hd : ∀ c ∈ r, c ∉ n) (rn : BodyRun) :
    mapRunUnits (pyReplace n r)
      (⟨pyReplace n r rn.text, rn.isDrawingTag,
        if rn.isDrawingTag then rn.leafTexts.map (pyReplace n r) else rn.leafTexts⟩ : BodyRun) =
      mapRunUnits (pyReplace n r) rn := by
  simp only [mapRunUnits, pyReplace_idem n r hn hr hd]
  by_cases h : rn.isDrawingTag = true
  · simp only [h, if_true]
    congr 1
    rw [List.map_map]
    exact List.map_congr_left (fun t _ => pyReplace_idem n r hn hr hd t)
  · simp [h]

lemma run_compose_count (n r : List Char) (hn : n ≠ []) (hr : r ≠ [])
    (hd : ∀ c ∈ r, c ∉ n) (rn : BodyRun) :
    countIf (containsSub n) rn.text
      + (if rn.isDrawingTag then (rn.leafTexts.map (countIf (containsSub n))).sum else 0)
      + (countIf (containsSub n) (pyReplace n r rn.text)
         + (((if rn.isDrawingTag then rn.leafTexts.map (pyReplace n r) else rn.leafTexts)).map
              (countIf (containsSub n))).sum)
      = runCountUnits (containsSub n) rn := by
  have hz : countIf (containsSub n) (pyReplace n r rn.text) = 0 := by
    simp [countIf, containsSub_pyReplace_eq_false n r hn hr hd]
  by_cases h : rn.isDrawingTag = true
  · have hz2 : ((rn.leafTexts.map (pyReplace n r)).map (countIf (containsSub n))).sum = 0 := by
      apply List.sum_eq_zero
      intro x hx
      obtain ⟨t, ht, rfl⟩ := List.mem_map.mp hx
      obtain ⟨t0, _, rfl⟩ := List.mem_map.mp ht
      simp [countIf, containsSub_pyReplace_eq_false n r hn hr hd]
    simp only [h, if_true, hz, hz2, runCountUnits]
    omega
  · simp [h, hz, runCountUnits]

lemma body_pass1_eq (n r : List Char) (body : List BodyPara) :
    mapCount (replaceBodyPara n r) body =
      (body.map (List.map (fun rn =>
        (⟨pyReplace n r rn.text, rn.isDrawingTag, rn.leafTexts⟩ : BodyRun))),
       (body.map (fun para =>
         (para.map (fun rn => countIf (containsSub n) rn.text)).sum)).sum) :=
  mapCount_eq_of_pointwise _ _ _ body (fun p _ => replaceBodyPara_eq n r p)

lemma body_pass3b_eq (n r : List Char) (body' : List BodyPara) :
    mapCount (mapCount (replaceDrawingRun n r)) body' =
      (body'.map (List.map (fun rn =>
        (⟨rn.text, rn.isDrawingTag,
          if rn.isDrawingTag then rn.leafTexts.map (pyReplace n r)
          else rn.leafTexts⟩ : BodyRun))),
       (body'.map (fun para => (para.map (fun rn =>
         if rn.isDrawingTag then (rn.leafTexts.map (countIf (containsSub n))).sum
         else 0)).sum)).sum) :=
  mapCount_eq_of_pointwise _ _ _ body' (fun para _ =>
    mapCount_eq_of_pointwise _ _ _ para (fun rn _ => replaceDrawingRun_eq n r rn))

lemma body_fallback_eq (n r : List Char) (body' : List BodyPara) :
    mapCount (mapCount (fallbackRun n r)) body' =
      (body'.map (List.map (mapRunUnits (pyReplace n r))),
       (body'.map (fun para => (para.map (fun rn =>
         countIf (containsSub n) rn.text
         + (rn.leafTexts.map (countIf (containsSub n))).sum)).sum)).sum) :=
  mapCount_eq_of_pointwise _ _ _ body' (fun para _ =>
    mapCount_eq_of_pointwise _ _ _ para (fun rn _ => fallbackRun_eq n r rn))

lemma tables_pass_eq (n r : List Char) (tables : List (List (List (List PlainPara)))) :
    mapCount (mapCount (mapCount (replaceParaList n r))) tables =
      (tables.map (List.map (List.map (List.map (List.map (pyReplace n r))))),
       (tables.map (fun tb =>
         (tb.map (fun row => (row.map (parasCount (containsSub n))).sum)).sum)).sum) :=
  mapCount_eq_of_pointwise _ _ _ tables (fun tb _ =>
    mapCount_eq_of_pointwise _ _ _ tb (fun row _ =>
      mapCount_eq_of_pointwise _ _ _ row (fun cell _ => replaceParaList_eq' n r cell)))

lemma opts_pass_eq (n r : List Char) (l : List (Option (List PlainPara))) :
    mapCount (replaceOptParas n r) l =
      (l.map (Option.map (List.map (List.map (pyReplace n r)))),
       (l.map (optParasCount (containsSub n))).sum) :=
  mapCount_eq_of_pointwise _ _ _ l (fun op _ => replaceOptParas_eq n r op)

lemma extra_pass_eq (n r : List Char) (l : List (List Char)) :
    mapCount (repRun n r) l =
      (l.map (pyReplace n r), (l.map (countIf (containsSub n))).sum) :=
  mapCount_eq_of_pointwise _ _ _ l (fun t _ => repRun_eq n r t)

lemma opts_second (n r : List Char) (hn : n ≠ []) (hr : r ≠ [])
    (hd : ∀ c ∈ r, c ∉ n) (l : List (Option (List PlainPara))) :
    mapCount (replaceOptParas n r) (l.map (Option.map (List.map (List.map (pyReplace n r))))) =
      (l.map (Option.map (List.map (List.map (pyReplace n r)))), 0) := by
  apply mapCount_noop
  intro op hop
  obtain ⟨op0, _, rfl⟩ := List.mem_map.mp hop
  exact replaceOptParas_second n r hn hr hd op0

lemma body_newDoc_final (n r : List Char) (hn : n ≠ []) (hr : r ≠ [])
    (hd : ∀ c ∈ r, c ∉ n) (body : List BodyPara) :
    ((body.map (List.map (fun rn =>
        (⟨pyReplace n r rn.text, rn.isDrawingTag, rn.leafTexts⟩ : BodyRun)))).map
      (List.map (fun rn =>
        (⟨rn.text, rn.isDrawingTag,
          if rn.isDrawingTag then rn.leafTexts.map (pyReplace n r)
          else rn.leafTexts⟩ : BodyRun)))).map
      (List.map (mapRunUnits (pyReplace n r))) =
      body.map (List.map (mapRunUnits (pyReplace n r))) := by
  simp only [List.map_map]
  apply List.map_congr_left
  intro para _
  simp only [Function.comp_apply, Function.comp_def, List.map_map]
  apply List.map_congr_left
  intro rn _
  exact run_compose_newDoc n r hn hr hd rn

lemma body_count_final (n r : List Char) (hn : n ≠ []) (hr : r ≠ [])
    (hd : ∀ c ∈ r, c ∉ n) (body : List BodyPara) :
    (body.map (fun para =>
       (para.map (fun rn => countIf (containsSub n) rn.text)).sum)).sum
    + ((body.map (List.map (fun rn =>
         (⟨pyReplace n r rn.text, rn.isDrawingTag, rn.leafTexts⟩ : BodyRun)))).map
        (fun para => (para.map (fun rn =>
          if rn.isDrawingTag then (rn.leafTexts.map (countIf (containsSub n))).sum
          else 0)).sum)).sum
    + (((body.map (List.map (fun rn =>
          (⟨pyReplace n r rn.text, rn.isDrawingTag, rn.leafTexts⟩ : BodyRun)))).map
         (List.map (fun rn =>
           (⟨rn.text, rn.isDrawingTag,
             if rn.isDrawingTag then rn.leafTexts.map (pyReplace n r)
             else rn.leafTexts⟩ : BodyRun)))).map
        (fun para => (para.map (fun rn =>
          countIf (containsSub n) rn.text
          + (rn.leafTexts.map (countIf (containsSub n))).sum)).sum)).sum
    = (body.map (fun para => (para.map (runCountUnits (containsSub n))).sum)).sum := by
  simp only [List.map_map, Function.comp_def]
  rw [← sum_map_add, ← sum_map_add]
  apply congrArg List.sum
  apply List.map_congr_left
  intro para _
  rw [← sum_map_add, ← sum_map_add]
  apply congrArg List.sum
  apply List.map_congr_left
  intro rn _
  exact run_compose_count n r hn hr hd rn

/-- The six passes of `replace_text_in_word` amount to replacing inside every
text unit exactly once and counting, once each, the units that contain the
search text; the output is saved under the `processedPath` name. -/
lemma replace_text_in_word_eq (n r : List Char) (hn : n ≠ []) (hr : r ≠ [])
    (hd : ∀ c ∈ r, c ∉ n) (fp : List Char) (now : PyDateTime) (doc : WordDoc) :
    replace_text_in_word fp now n r doc =
      ⟨docCountUnits (containsSub n) doc, docMapUnits (pyReplace n r) doc,
       processedPath fp now⟩ := by
  have hbody := body_count_final n r hn hr hd doc.body
  have hdoc := body_newDoc_final n r hn hr hd doc.body
  simp only [List.map_map, Function.comp_def] at hbody hdoc
  simp only [replace_text_in_word, body_pass1_eq, tables_pass_eq, opts_pass_eq,
    extra_pass_eq, body_pass3b_eq, body_fallback_eq,
    replaceTables_second n r hn hr hd, opts_second n r hn hr hd,
    ReplaceResult.mk.injEq, docCountUnits, docMapUnits, WordDoc.mk.injEq,
    List.map_map, Function.comp_def]
  refine ⟨by omega, ?_⟩
  simpa using hdoc

/-- C4: replacement in `replace_text_in_word` is literal, case-sensitive
substring replacement — within each affected text unit every non-overlapping
occurrence is replaced in the one `str.replace` call (characterised by the
split/intercalate identity) — and the counter is incremented once per text
unit that changes (a unit changes exactly when it contains the marker), never
once per occurrence, accumulating across all the passes into the single count
returned.  Stated for a marker that the replacement string cannot reintroduce
(the replacement shares no character with the marker), which covers the
system's marker `検査対象情報` and its ASCII replacement values. -/
theorem c4_replacement_discipline (n r fp : List Char) (now : PyDateTime)
    (doc : WordDoc) (t : List Char)
    (hn : n ≠ []) (hr : r ≠ []) (hd : ∀ c ∈ r, c ∉ n) :
    (replace_text_in_word fp now n r doc).newDoc = docMapUnits (pyReplace n r) doc
    ∧ (replace_text_in_word fp now n r doc).count = docCountUnits (containsSub n) doc
    ∧ pyReplace n r t = List.intercalate r (pySplitOn n t)
    ∧ (containsSub n t = true → pyReplace n r t ≠ t)
    ∧ (containsSub n t = false → pyReplace n r t = t) := by
  rw [replace_text_in_word_eq n r hn hr hd fp now doc]
  exact ⟨rfl, rfl, pyReplace_eq_intercalate n r hn t,
    fun hc => pyReplace_ne_of_contains n r hn hr hd t hc,
    fun hc => pyReplace_of_not_contains n r t hc⟩

/-- C4 witness: the theorem applied to a concrete one-paragraph document. -/
theorem c4_replacement_discipline_witness :
    (replace_text_in_word (("f.docx").data) ⟨2025, 1, 2, 3, 4, 5⟩ ['a', 'b'] ['X']
        ⟨[[⟨['z', 'a', 'b'], false, []⟩]], [], [], [], [], []⟩).newDoc
      = docMapUnits (pyReplace ['a', 'b'] ['X'])
          ⟨[[⟨['z', 'a', 'b'], false, []⟩]], [], [], [], [], []⟩
    ∧ (replace_text_in_word (("f.docx").data) ⟨2025, 1, 2, 3, 4, 5⟩ ['a', 'b'] ['X']
        ⟨[[⟨['z', 'a', 'b'], false, []⟩]], [], [], [], [], []⟩).count
      = docCountUnits (containsSub ['a', 'b'])
          ⟨[[⟨['z', 'a', 'b'], false, []⟩]], [], [], [], [], []⟩
    ∧ pyReplace ['a', 'b'] ['X'] ['z', 'a', 'b'] =
        List.intercalate ['X'] (pySplitOn ['a', 'b'] ['z', 'a', 'b'])
    ∧ (containsSub ['a', 'b'] ['z', 'a', 'b'] = true →
        pyReplace ['a', 'b'] ['X'] ['z', 'a', 'b'] ≠ ['z', 'a', 'b'])
    ∧ (containsSub ['a', 'b'] ['z', 'a', 'b'] = false →
        pyReplace ['a', 'b'] ['X'] ['z', 'a', 'b'] = ['z', 'a', 'b']) :=
  c4_replacement_discipline ['a', 'b'] ['X'] (("f.docx").data) ⟨2025, 1, 2, 3, 4, 5⟩
    ⟨[[⟨['z', 'a', 'b'], false, []⟩]], [], [], [], [], []⟩ ['z', 'a', 'b']
    (by decide) (by decide) (by decide)

lemma sum_zero_mem (l : List Nat) (h : l.sum = 0) (x : Nat) (hx : x ∈ l) : x = 0 := by
  induction l with
  | nil => cases hx
  | cons a t ih =>
    simp only [List.sum_cons] at h
    rcases List.mem_cons.mp hx with rfl | hx'
    · omega
    · exact ih (by omega) hx'

lemma countIf_zero {p : List Char → Bool} {t : List Char} (h : countIf p t = 0) :
    p t = false := by
  cases hpt : p t
  · rfl
  · simp [countIf, hpt] at h

lemma repRun_noop (n r t : List Char) (hc : containsSub n t = false) :
    repRun n r t = (t, 0) := by
  simp [repRun, hc]

lemma replaceParaList_noop (n r : List Char) (ps : List PlainPara)
    (hfree : ∀ q ∈ ps, ∀ t ∈ q, containsSub n t = false) :
    replaceParaList n r ps = (ps, 0) :=
  mapCount_noop _ _ (fun q hq => mapCount_noop _ _ (fun t ht => repRun_noop n r t (hfree q hq t ht)))

lemma replaceOptParas_noop (n r : List Char) (op : Option (List PlainPara))
    (hfree : ∀ ps, op = some ps → ∀ q ∈ ps, ∀ t ∈ q, containsSub n t = false) :
    replaceOptParas n r op = (op, 0) := by
  cases op with
  | none => rfl
  | some ps =>
    show (some (replaceParaList n r ps).1, (replaceParaList n r ps).2) = (some ps, 0)
    rw [replaceParaList_noop n r ps (hfree ps rfl)]

lemma replaceBodyPara_noop (n r : List Char) (para : BodyPara)
    (hfree : ∀ rn ∈ para, containsSub n rn.text = false) :
    replaceBodyPara n r para = (para, 0) := by
  rw [replaceBodyPara_eq]
  have h1 : para.map (fun rn =>
      (⟨pyReplace n r rn.text, rn.isDrawingTag, rn.leafTexts⟩ : BodyRun)) = para := by
    have := List.map_congr_left (l := para)
      (f := fun rn => (⟨pyReplace n r rn.text, rn.isDrawingTag, rn.leafTexts⟩ : BodyRun))
      (g := id)
      (fun rn hrn => by
        show (⟨pyReplace n r rn.text, rn.isDrawingTag, rn.leafTexts⟩ : BodyRun) = rn
        rw [pyReplace_of_not_contains n r _ (hfree rn hrn)])
    rw [this, List.map_id]
  have h2 : (para.map (fun rn => countIf (containsSub n) rn.text)).sum = 0 := by
    apply List.sum_eq_zero
    intro x hx
    obtain ⟨rn, hrn, rfl⟩ := List.mem_map.mp hx
    simp [countIf, hfree rn hrn]
  rw [h1, h2]

lemma replaceDrawingRun_noop (n r : List Char) (rn : BodyRun)
    (hleaf : ∀ lt ∈ rn.leafTexts, containsSub n lt = false) :
    replaceDrawingRun n r rn = (rn, 0) := by
  simp only [replaceDrawingRun]
  by_cases h : rn.isDrawingTag = true
  · rw [if_pos h, mapCount_noop _ _ (fun t ht => repRun_noop n r t (hleaf t ht))]
  · rw [if_neg h]

lemma fallbackRun_noop (n r : List Char) (rn : BodyRun)
    (htext : containsSub n rn.text = false)
    (hleaf : ∀ lt ∈ rn.leafTexts, containsSub n lt = false) :
    fallbackRun n r rn = (rn, 0) := by
  simp only [fallbackRun]
  rw [repRun_noop n r _ htext, mapCount_noop _ _ (fun t ht => repRun_noop n r t (hleaf t ht))]
  rfl

/-- When no text unit of the document contains the search text, every pass is
the identity: the count is zero, the document is textually unchanged, and the
output path is still produced. -/
lemma replace_text_in_word_nochange (n r fp : List Char) (now : PyDateTime) (doc : WordDoc)
    (h : docCountUnits (containsSub n) doc = 0) :
    replace_text_in_word fp now n r doc = ⟨0, doc, processedPath fp now⟩ := by
  simp only [docCountUnits] at h
  have hbS : (doc.body.map
      (fun para => (para.map (runCountUnits (containsSub n))).sum)).sum = 0 := by omega
  have htS : (doc.tables.map (fun tb =>
      (tb.map (fun row => (row.map (parasCount (containsSub n))).sum)).sum)).sum = 0 := by omega
  have hsS : (doc.shapes.map (optParasCount (containsSub n))).sum = 0 := by omega
  have heS : (doc.extraTexts.map (countIf (containsSub n))).sum = 0 := by omega
  have hhS : (doc.headers.map (optParasCount (containsSub n))).sum = 0 := by omega
  have hfS : (doc.footers.map (optParasCount (containsSub n))).sum = 0 := by omega
  have hbody : ∀ para ∈ doc.body, ∀ rn ∈ para,
      containsSub n rn.text = false ∧ ∀ lt ∈ rn.leafTexts, containsSub n lt = false := by
    intro para hpara rn hrn
    have h1 : (para.map (runCountUnits (containsSub n))).sum = 0 :=
      sum_zero_mem _ hbS _ (List.mem_map_of_mem _ hpara)
    have h2 : runCountUnits (containsSub n) rn = 0 :=
      sum_zero_mem _ h1 _ (List.mem_map_of_mem _ hrn)
    simp only [runCountUnits] at h2
    constructor
    · exact countIf_zero (by omega)
    · intro lt hlt
      have h3 : (rn.leafTexts.map (countIf (containsSub n))).sum = 0 := by omega
      exact countIf_zero (sum_zero_mem _ h3 _ (List.mem_map_of_mem _ hlt))
  have hparasFree : ∀ (ps : List PlainPara),
      parasCount (containsSub n) ps = 0 → ∀ q ∈ ps, ∀ t ∈ q, containsSub n t = false := by
    intro ps hps q hq t ht
    have h1 : (q.map (countIf (containsSub n))).sum = 0 :=
      sum_zero_mem _ hps _ (List.mem_map_of_mem _ hq)
    exact countIf_zero (sum_zero_mem _ h1 _ (List.mem_map_of_mem _ ht))
  have hoptFree : ∀ (l : List (Option (List PlainPara))),
      (l.map (optParasCount (containsSub n))).sum = 0 →
      ∀ op ∈ l, replaceOptParas n r op = (op, 0) := by
    intro l hl op hop
    apply replaceOptParas_noop
    intro ps hps
    apply hparasFree
    have := sum_zero_mem _ hl _ (List.mem_map_of_mem _ hop)
    rw [hps] at this
    exact this
  have p1 : mapCount (replaceBodyPara n r) doc.body = (doc.body, 0) :=
    mapCount_noop _ _ (fun para hpara =>
      replaceBodyPara_noop n r para (fun rn hrn => (hbody para hpara rn hrn).1))
  have p2 : mapCount (mapCount (mapCount (replaceParaList n r))) doc.tables =
      (doc.tables, 0) := by
    apply mapCount_noop
    intro tb htb
    have htb0 : (tb.map (fun row => (row.map (parasCount (containsSub n))).sum)).sum = 0 :=
      sum_zero_mem _ htS _ (List.mem_map_of_mem _ htb)
    apply mapCount_noop
    intro row hrow
    have hrow0 : (row.map (parasCount (containsSub n))).sum = 0 :=
      sum_zero_mem _ htb0 _ (List.mem_map_of_mem _ hrow)
    apply mapCount_noop
    intro cell hcell
    exact replaceParaList_noop n r cell
      (hparasFree cell (sum_zero_mem _ hrow0 _ (List.mem_map_of_mem _ hcell)))
  have p3 : mapCount (replaceOptParas n r) doc.shapes = (doc.shapes, 0) :=
    mapCount_noop _ _ (hoptFree doc.shapes hsS)
  have p4 : mapCount (mapCount (replaceDrawingRun n r)) doc.body = (doc.body, 0) :=
    mapCount_noop _ _ (fun para hpara => mapCount_noop _ _ (fun rn hrn =>
      replaceDrawingRun_noop n r rn (hbody para hpara rn hrn).2))
  have p5b : mapCount (mapCount (fallbackRun n r)) doc.body = (doc.body, 0) :=
    mapCount_noop _ _ (fun para hpara => mapCount_noop _ _ (fun rn hrn =>
      fallbackRun_noop n r rn (hbody para hpara rn hrn).1 (hbody para hpara rn hrn).2))
  have p5e : mapCount (repRun n r) doc.extraTexts = (doc.extraTexts, 0) :=
    mapCount_noop _ _ (fun t ht =>
      repRun_noop n r t (countIf_zero (sum_zero_mem _ heS _ (List.mem_map_of_mem _ ht))))
  have p6 : mapCount (replaceOptParas n r) doc.headers = (doc.headers, 0) :=
    mapCount_noop _ _ (hoptFree doc.headers hhS)
  have p7 : mapCount (replaceOptParas n r) doc.footers = (doc.footers, 0) :=
    mapCount_noop _ _ (hoptFree doc.footers hfS)
  simp only [replace_text_in_word, p1, p2, p3, p4, p5b, p5e, p6, p7]

/-- C5: when the source document contains zero occurrences of the marker, the
replacement returns a count of zero and performs no textual change but still
produces the output file path, and the caller's outcome is the warning
dialog — distinguishable from both the positive-count success (info dialog)
and the error outcome (error dialog). -/
theorem c5_zero_count_outcome (repl fp : List Char) (now : PyDateTime) (doc : WordDoc)
    (u m mf o : String) (de : Bool)
    (h : docCountUnits (containsSub REPLACEMENT_KEY) doc = 0) :
    replace_text_in_word fp now REPLACEMENT_KEY repl doc =
      ⟨0, doc, processedPath fp now⟩
    ∧ process_word_file u m mf o (some fp) de now doc =
        ⟨WordDialog.warning, false, none, some (processedPath fp now, doc)⟩
    ∧ WordDialog.warning ≠ WordDialog.info
    ∧ WordDialog.warning ≠ WordDialog.error := by
  refine ⟨replace_text_in_word_nochange REPLACEMENT_KEY repl fp now doc h, ?_,
    by decide, by decide⟩
  have hrw2 := replace_text_in_word_nochange REPLACEMENT_KEY
    (o.data ++ '/' :: mf.data) fp now doc h
  simp [process_word_file, hrw2]

/-- C5 witness: the theorem applied to a concrete marker-free document. -/
theorem c5_zero_count_outcome_witness :
    replace_text_in_word (("check2.docx").data) ⟨2025, 1, 2, 3, 4, 5⟩ REPLACEMENT_KEY
        (("O2315/J00023150100").data) ⟨[[⟨['z'], false, []⟩]], [], [], [], [], []⟩ =
      ⟨0, ⟨[[⟨['z'], false, []⟩]], [], [], [], [], []⟩,
       processedPath (("check2.docx").data) ⟨2025, 1, 2, 3, 4, 5⟩⟩
    ∧ process_word_file "マキシンコー" "201-2312.003000" "J00023150100" "O2315"
        (some (("check2.docx").data)) true ⟨2025, 1, 2, 3, 4, 5⟩
        ⟨[[⟨['z'], false, []⟩]], [], [], [], [], []⟩ =
        ⟨WordDialog.warning, false, none,
         some (processedPath (("check2.docx").data) ⟨2025, 1, 2, 3, 4, 5⟩,
           ⟨[[⟨['z'], false, []⟩]], [], [], [], [], []⟩)⟩
    ∧ WordDialog.warning ≠ WordDialog.info
    ∧ WordDialog.warning ≠ WordDialog.error :=
  c5_zero_count_outcome (("O2315/J00023150100").data) (("check2.docx").data)
    ⟨2025, 1, 2, 3, 4, 5⟩ ⟨[[⟨['z'], false, []⟩]], [], [], [], [], []⟩
    "マキシンコー" "201-2312.003000" "J00023150100" "O2315" true (by decide)

lemma d10_inj : ∀ a < 10, ∀ b < 10, digitChar a = digitChar b → a = b := by decide

lemma digitChar_inj_mod (x y : Nat) (h : digitChar x = digitChar y) : x % 10 = y % 10 := by
  have ex : digitChar (x % 10) = digitChar x := by
    have e : x % 10 % 10 = x % 10 := by omega
    unfold digitChar
    rw [e]
  have ey : digitChar (y % 10) = digitChar y := by
    have e : y % 10 % 10 = y % 10 := by omega
    unfold digitChar
    rw [e]
  exact d10_inj _ (Nat.mod_lt _ (by omega)) _ (Nat.mod_lt _ (by omega))
    (by rw [ex, ey, h])

lemma formatTimestamp_inj (t1 t2 : PyDateTime)
    (hb1 : timestampInRange t1) (hb2 : timestampInRange t2)
    (h : formatTimestamp t1 = formatTimestamp t2) : t1 = t2 := by
  obtain ⟨y1, mo1, d1, hh1, mi1, s1⟩ := t1
  obtain ⟨y2, mo2, d2, hh2, mi2, s2⟩ := t2
  obtain ⟨by1, bmo1, bd1, bh1, bmi1, bs1⟩ := hb1
  obtain ⟨by2, bmo2, bd2, bh2, bmi2, bs2⟩ := hb2
  simp only [formatTimestamp, pad4, pad2, List.cons_append, List.nil_append,
    List.cons.injEq, and_true] at h
  simp only at by1 bmo1 bd1 bh1 bmi1 bs1 by2 bmo2 bd2 bh2 bmi2 bs2
  obtain ⟨e1, e2, e3, e4, e5, e6, e7, e8, _, e9, e10, e11, e12, e13, e14⟩ := h
  have q1 := digitChar_inj_mod _ _ e1
  have q2 := digitChar_inj_mod _ _ e2
  have q3 := digitChar_inj_mod _ _ e3
  have q4 := digitChar_inj_mod _ _ e4
  have q5 := digitChar_inj_mod _ _ e5
  have q6 := digitChar_inj_mod _ _ e6
  have q7 := digitChar_inj_mod _ _ e7
  have q8 := digitChar_inj_mod _ _ e8
  have q9 := digitChar_inj_mod _ _ e9
  have q10 := digitChar_inj_mod _ _ e10
  have q11 := digitChar_inj_mod _ _ e11
  have q12 := digitChar_inj_mod _ _ e12
  have q13 := digitChar_inj_mod _ _ e13
  have q14 := digitChar_inj_mod _ _ e14
  simp only [PyDateTime.mk.injEq]
  refine ⟨by omega, by omega, by omega, by omega, by omega, by omega⟩

/-- C6: running `replace_text_in_word` twice against the same untouched source
document with the same marker and replacement yields equal, non-zero
replacement counts and identical output documents (not cumulative — each call
starts from the same source value), while the two output paths are distinct
because they carry the two timestamps. -/
theorem c6_rerun_independence (n r fp : List Char) (doc : WordDoc) (t1 t2 : PyDateTime)
    (hn : n ≠ []) (hr : r ≠ []) (hd : ∀ c ∈ r, c ∉ n)
    (hocc : 0 < docCountUnits (containsSub n) doc)
    (hb1 : timestampInRange t1) (hb2 : timestampInRange t2) (hne : t1 ≠ t2) :
    (replace_text_in_word fp t1 n r doc).count = (replace_text_in_word fp t2 n r doc).count
    ∧ 0 < (replace_text_in_word fp t1 n r doc).count
    ∧ (replace_text_in_word fp t1 n r doc).newDoc = (replace_text_in_word fp t2 n r doc).newDoc
    ∧ (replace_text_in_word fp t1 n r doc).newPath ≠
        (replace_text_in_word fp t2 n r doc).newPath := by
  rw [replace_text_in_word_eq n r hn hr hd fp t1 doc,
    replace_text_in_word_eq n r hn hr hd fp t2 doc]
  refine ⟨rfl, hocc, rfl, ?_⟩
  intro hpath
  apply hne
  simp only [processedPath, List.append_assoc] at hpath
  have h2 := List.append_cancel_left hpath
  have h3 := List.append_cancel_left h2
  have h4 := List.append_cancel_right h3
  exact formatTimestamp_inj t1 t2 hb1 hb2 h4

/-- C6 witness: the theorem applied to a concrete document containing the
marker, with two distinct timestamps. -/
theorem c6_rerun_independence_witness :
    (replace_text_in_word (("check2.docx").data) ⟨2025, 1, 2, 3, 4, 5⟩ ['a', 'b'] ['X']
        ⟨[[⟨['z', 'a', 'b'], false, []⟩]], [], [], [], [], []⟩).count =
      (replace_text_in_word (("check2.docx").data) ⟨2025, 1, 2, 3, 4, 6⟩ ['a', 'b'] ['X']
        ⟨[[⟨['z', 'a', 'b'], false, []⟩]], [], [], [], [], []⟩).count
    ∧ 0 < (replace_text_in_word (("check2.docx").data) ⟨2025, 1, 2, 3, 4, 5⟩ ['a', 'b'] ['X']
        ⟨[[⟨['z', 'a', 'b'], false, []⟩]], [], [], [], [], []⟩).count
    ∧ (replace_text_in_word (("check2.docx").data) ⟨2025, 1, 2, 3, 4, 5⟩ ['a', 'b'] ['X']
        ⟨[[⟨['z', 'a', 'b'], false, []⟩]], [], [], [], [], []⟩).newDoc =
      (replace_text_in_word (("check2.docx").data) ⟨2025, 1, 2, 3, 4, 6⟩ ['a', 'b'] ['X']
        ⟨[[⟨['z', 'a', 'b'], false, []⟩]], [], [], [], [], []⟩).newDoc
    ∧ (replace_text_in_word (("check2.docx").data) ⟨2025, 1, 2, 3, 4, 5⟩ ['a', 'b'] ['X']
        ⟨[[⟨['z', 'a', 'b'], false, []⟩]], [], [], [], [], []⟩).newPath ≠
      (replace_text_in_word (("check2.docx").data) ⟨2025, 1, 2, 3, 4, 6⟩ ['a', 'b'] ['X']
        ⟨[[⟨['z', 'a', 'b'], false, []⟩]], [], [], [], [], []⟩).newPath :=
  c6_rerun_independence ['a', 'b'] ['X'] (("check2.docx").data)
    ⟨[[⟨['z', 'a', 'b'], false, []⟩]], [], [], [], [], []⟩
    ⟨2025, 1, 2, 3, 4, 5⟩ ⟨2025, 1, 2, 3, 4, 6⟩
    (by decide) (by decide) (by decide) (by decide) (by decide) (by decide) (by decide)

lemma pyIsDigit_of_ascii {c : Char} (h48 : 48 ≤ c.toNat) (h57 : c.toNat ≤ 57) :
    pyIsDigit c = true := by
  unfold pyIsDigit
  refine List.any_eq_true.mpr ⟨(48, 57), by decide, ?_⟩
  exact decide_eq_true ⟨h48, h57⟩

lemma nonzeroDigit_pyIsDigit {c : Char} (h1 : '1' ≤ c) (h2 : c ≤ '9') :
    pyIsDigit c = true := by
  have g1 : ('1' : Char).val.toNat ≤ c.val.toNat := h1
  have g2 : c.val.toNat ≤ ('9' : Char).val.toNat := h2
  have e1 : ('1' : Char).val.toNat = 49 := rfl
  have e9 : ('9' : Char).val.toNat = 57 := rfl
  refine pyIsDigit_of_ascii ?_ ?_
  · show 48 ≤ c.val.toNat
    omega
  · show c.val.toNat ≤ 57
    omega

lemma key_not_pyDigit : ∀ c ∈ REPLACEMENT_KEY, pyIsDigit c = false := by decide

lemma key_digit_free {c : Char} (hd : pyIsDigit c = true) : c ∉ REPLACEMENT_KEY := by
  intro hkey
  have hf := key_not_pyDigit c hkey
  rw [hd] at hf
  exact Bool.noConfusion hf

lemma matchOrderCore_not_key {l : List Char} (h : matchOrderCore l = true) :
    ∀ c ∈ l, c ∉ REPLACEMENT_KEY := by
  unfold matchOrderCore at h
  split at h
  case _ m c0 d1 d2 d3 d4 =>
    simp only [Bool.and_eq_true, Bool.or_eq_true, beq_iff_eq, and_assoc, or_assoc] at h
    obtain ⟨h0, h1, h2, h3, h4⟩ := h
    intro c hc
    simp only [List.mem_cons, List.not_mem_nil, or_false] at hc
    rcases hc with rfl | rfl | rfl | rfl | rfl
    · rcases h0 with rfl | rfl | rfl <;> decide
    · exact key_digit_free h1
    · exact key_digit_free h2
    · exact key_digit_free h3
    · exact key_digit_free h4
  case _ => exact absurd h (by simp)

lemma matchManufacturingCore_not_key {l : List Char} (h : matchManufacturingCore l = true) :
    ∀ c ∈ l, c ∉ REPLACEMENT_KEY := by
  unfold matchManufacturingCore at h
  split at h
  case _ m c0 c1 c2 c3 d1 d2 d3 d4 c8 n c10 c11 =>
    simp only [Bool.and_eq_true, beq_iff_eq, isNonzeroDigit, decide_eq_true_eq,
      and_assoc] at h
    obtain ⟨e0, e1, e2, e3, hd1, hd2, hd3, hd4, e8, hn1, hn2, e10, e11⟩ := h
    intro c hc
    simp only [List.mem_cons, List.not_mem_nil, or_false] at hc
    rcases hc with rfl | rfl | rfl | rfl | rfl | rfl | rfl | rfl | rfl | rfl | rfl | rfl
    · subst e0; decide
    · subst e1; decide
    · subst e2; decide
    · subst e3; decide
    · exact key_digit_free hd1
    · exact key_digit_free hd2
    · exact key_digit_free hd3
    · exact key_digit_free hd4
    · subst e8; decide
    · exact key_digit_free (nonzeroDigit_pyIsDigit hn1 hn2)
    · subst e10; decide
    · subst e11; decide
  case _ => exact absurd h (by simp)

lemma matchAnchored_not_key {core : List Char → Bool}
    (hcore : ∀ l, core l = true → ∀ c ∈ l, c ∉ REPLACEMENT_KEY)
    {l : List Char} (h : matchAnchored core l = true) :
    ∀ c ∈ l, c ∉ REPLACEMENT_KEY := by
  simp only [matchAnchored, Bool.or_eq_true, Bool.and_eq_true, beq_iff_eq] at h
  rcases h with h | ⟨hlast, h⟩
  · exact hcore l h
  · obtain ⟨t, rfl⟩ := getLast?_some.mp hlast
    rw [List.dropLast_concat] at h
    intro c hc
    rcases List.mem_append.mp hc with hct | hcn
    · exact hcore t h c hct
    · simp only [List.mem_cons, List.not_mem_nil, or_false] at hcn
      subst hcn
      decide

lemma repl_data_eq (o mf : String) :
    ((o ++ "/" ++ mf) : String).data = o.data ++ '/' :: mf.data := by
  simp [string_data_append]

lemma repl_ne_nil (o mf : String) : ((o ++ "/" ++ mf) : String).data ≠ [] := by
  rw [repl_data_eq]
  simp

lemma repl_disjoint (o mf : String)
    (ho : (validate_order_number o).valid = true)
    (hm : (validate_manufacturing_number mf).valid = true) :
    ∀ c ∈ ((o ++ "/" ++ mf) : String).data, c ∉ REPLACEMENT_KEY := by
  intro c hc
  rw [repl_data_eq] at hc
  rcases List.mem_append.mp hc with hco | hcr
  · exact matchAnchored_not_key (fun l hl => matchOrderCore_not_key hl)
      (matchOrder_of_valid ho) c hco
  · rcases List.mem_cons.mp hcr with rfl | hcm
    · decide
    · exact matchAnchored_not_key (fun l hl => matchManufacturingCore_not_key hl)
        (matchManufacturing_of_valid hm) c hcm

/-- C10: the value substituted for the sentinel marker by the word-processing
handler is exactly the validated order number, `/`, then the validated
manufacturing number: the saved document is the source with every unit's
occurrences of `検査対象情報` replaced by `order ++ "/" ++ manufacturing`
(e.g. `"O2315/J00023150100"`). -/
theorem c10_replacement_value (u m mf o : String) (p : List Char) (de : Bool)
    (now : PyDateTime) (doc : WordDoc)
    (ho : (validate_order_number o).valid = true)
    (hm : (validate_manufacturing_number mf).valid = true) :
    process_word_file u m mf o (some p) de now doc =
      (if 0 < docCountUnits (containsSub REPLACEMENT_KEY) doc then
        ⟨WordDialog.info, true, some (processedPath p now),
         some (processedPath p now,
           docMapUnits (pyReplace REPLACEMENT_KEY ((o ++ "/" ++ mf) : String).data) doc)⟩
      else
        ⟨WordDialog.warning, false, none,
         some (processedPath p now,
           docMapUnits (pyReplace REPLACEMENT_KEY ((o ++ "/" ++ mf) : String).data) doc)⟩)
    ∧ (("O2315" ++ "/" ++ "J00023150100" : String) = "O2315/J00023150100") := by
  have hrep := replace_text_in_word_eq REPLACEMENT_KEY ((o ++ "/" ++ mf) : String).data
    (by decide) (repl_ne_nil o mf) (repl_disjoint o mf ho hm) p now doc
  rw [repl_data_eq] at hrep
  constructor
  · simp only [process_word_file, hrep, repl_data_eq]
  · rfl

/-- C10 witness: the theorem applied at the concrete validated pair
`"O2315"` / `"J00023150100"`. -/
theorem c10_replacement_value_witness :
    process_word_file "マキシンコー" "201-2312.003000" "J00023150100" "O2315"
        (some (("check2.docx").data)) true ⟨2025, 1, 2, 3, 4, 5⟩
        ⟨[[⟨REPLACEMENT_KEY, false, []⟩]], [], [], [], [], []⟩ =
      (if 0 < docCountUnits (containsSub REPLACEMENT_KEY)
          ⟨[[⟨REPLACEMENT_KEY, false, []⟩]], [], [], [], [], []⟩ then
        ⟨WordDialog.info, true,
         some (processedPath (("check2.docx").data) ⟨2025, 1, 2, 3, 4, 5⟩),
         some (processedPath (("check2.docx").data) ⟨2025, 1, 2, 3, 4, 5⟩,
           docMapUnits (pyReplace REPLACEMENT_KEY
             (("O2315" ++ "/" ++ "J00023150100" : String)).data)
             ⟨[[⟨REPLACEMENT_KEY, false, []⟩]], [], [], [], [], []⟩)⟩
      else
        ⟨WordDialog.warning, false, none,
         some (processedPath (("check2.docx").data) ⟨2025, 1, 2, 3, 4, 5⟩,
           docMapUnits (pyReplace REPLACEMENT_KEY
             (("O2315" ++ "/" ++ "J00023150100" : String)).data)
             ⟨[[⟨REPLACEMENT_KEY, false, []⟩]], [], [], [], [], []⟩)⟩)
    ∧ (("O2315" ++ "/" ++ "J00023150100" : String) = "O2315/J00023150100") :=
  c10_replacement_value "マキシンコー" "201-2312.003000" "J00023150100" "O2315"
    (("check2.docx").data) true ⟨2025, 1, 2, 3, 4, 5⟩
    ⟨[[⟨REPLACEMENT_KEY, false, []⟩]], [], [], [], [], []⟩ (by decide) (by decide)
